import Mathlib

/-! PredPreyCPU host orchestration: a shallow embedding.

Lean model of the host side of `pp/PredPreyCPU.c` (the OpenCL predator-prey
simulation for the CPU): the work partitioner `ppc_numthreads_get`, the host
side initialisation performed by `ppc_buffers_init`, the statistics writer
`ppc_stats_get`, the dispatch loop `ppc_simulate`, the teardown
`ppc_devicebuffers_free` and the control flow of `main`.

Conventions.
* C unsigned integers are natural numbers; `% 2 ^ 32` is written wherever a
  `cl_uint` / `unsigned int` computation can wrap.
* A C operation with undefined behaviour (integer division by zero, writing
  through a null `FILE` pointer) or a loop that can fail to terminate yields
  `none`, or the outcome `fault` in the control flow of `main`.
* Device memory regions are total maps from indices to records. They carry no
  size; the statements about the initialisation are made for grids with
  `grid_x * grid_y < 2 ^ 32`, for which the indices stay inside the regions.
-/

namespace PredPreyCPU

/-! ## Constants -/

/-- Arena capacity, `#define MAX_AGENTS 16777216`. -/
def MAX_AGENTS : Nat := 16777216

/-- Value of `UINT_MAX` for a 32 bit `unsigned int`. -/
def UINT_MAX : Nat := 4294967295

/-- Null sentinel, `#define NULL_AGENT_POINTER UINT_MAX`. -/
def NULL_AGENT_POINTER : Nat := UINT_MAX

/-- Species tag of prey, `#define SHEEP_ID 0`. -/
def SHEEP_ID : Nat := 0

/-- Species tag of predators, `#define WOLF_ID 1`. -/
def WOLF_ID : Nat := 1

/-! ## Work partitioner -/

/-- Command line values consumed by the partitioner (`PPCArgs`): the requested
global work size `gws` and the local work size `lws`, both `size_t`. The
file name members play no part in the computations modelled here. -/
structure PPCArgs where
  gws : Nat
  lws : Nat
  deriving DecidableEq, Repr

/-- Work sizes filled in by `ppc_numthreads_get` (`PPCWorkSizes`). -/
structure PPCWorkSizes where
  gws : Nat
  lws : Nat
  max_gws : Nat
  rows_per_workitem : Nat
  deriving DecidableEq, Repr

/-- The `MIN(a, b)` macro: `((a) < (b)) ? (a) : (b)`. -/
def MIN (a b : Nat) : Nat := if a < b then a else b

/-- Embedding of `ppc_numthreads_get(args, &workSizes, cu, num_rows)`.

```
workSizes->max_gws = num_rows / 3;
workSizes->gws = MIN(args.gws, workSizes->max_gws);
workSizes->rows_per_workitem = num_rows / workSizes->gws + (num_rows % workSizes->gws > 0);
workSizes->lws = args.lws;
```
The division and the remainder by `workSizes->gws` are undefined when that
value is zero; the model answers `none` there. -/
def ppc_numthreads_get (args : PPCArgs) (_cu : Nat) (num_rows : Nat) : Option PPCWorkSizes :=
  let max_gws := num_rows / 3
  let gws := MIN args.gws max_gws
  if gws = 0 then none
  else
    some
      { max_gws := max_gws
        gws := gws
        rows_per_workitem := num_rows / gws + (if num_rows % gws > 0 then 1 else 0)
        lws := args.lws }

/-- Modelled from the spec: the row a worker derives from the turn number. The
kernel source that computes it is not part of the host file; the specification
gives `row(w, t) = w + t * W_eff`. -/
def row_of_turn (W_eff w t : Nat) : Nat := w + t * W_eff

/-- Distance between two rows. -/
def row_distance (r1 r2 : Nat) : Nat := if r1 ≤ r2 then r2 - r1 else r1 - r2

/-! ## Data model -/

/-- Simulation parameters as delivered by the parameter loader (`PPParameters`,
declared in the common header). Every member is an `unsigned int`. -/
structure PPParameters where
  init_sheep : Nat
  sheep_gain_from_food : Nat
  sheep_reproduce_threshold : Nat
  sheep_reproduce_prob : Nat
  init_wolves : Nat
  wolves_gain_from_food : Nat
  wolves_reproduce_threshold : Nat
  wolves_reproduce_prob : Nat
  grass_restart : Nat
  grid_x : Nat
  grid_y : Nat
  iters : Nat
  deriving DecidableEq, Repr

/-- One statistics record (`PPStatistics`): three `cl_uint` counters. -/
structure PPStatistics where
  sheep : Nat
  wolves : Nat
  grass : Nat
  deriving DecidableEq, Repr

/-- One grid cell (`PPCCell`). -/
structure PPCCell where
  grass : Nat
  agent_pointer : Nat
  deriving DecidableEq, Repr

/-- One arena slot (`PPCAgent`). -/
structure PPCAgent where
  energy : Nat
  action : Nat
  type : Nat
  next : Nat
  deriving DecidableEq, Repr

/-- Simulation parameters in the layout sent to the kernels (`PPCSimParams`). -/
structure PPCSimParams where
  size_x : Nat
  size_y : Nat
  size_xy : Nat
  max_agents : Nat
  null_agent_pointer : Nat
  grass_restart : Nat
  lines_per_thread : Nat
  deriving DecidableEq, Repr

/-- Embedding of `ppc_simparams_init(params, null_agent_pointer, lines_per_thread)`.
The product and the cast to `cl_uint` are 32 bit operations. -/
def ppc_simparams_init (params : PPParameters) (null_agent_pointer : Nat)
    (lines_per_thread : Nat) : PPCSimParams :=
  { size_x := params.grid_x
    size_y := params.grid_y
    size_xy := (params.grid_x * params.grid_y) % 2 ^ 32
    max_agents := MAX_AGENTS
    null_agent_pointer := null_agent_pointer
    grass_restart := params.grass_restart
    lines_per_thread := lines_per_thread % 2 ^ 32 }

/-! ## The host random number generator

`GRand` belongs to GLib. It is modelled by its contract: a generator is an
arbitrary stream of raw draws together with a read position, and
`g_rand_int_range (rng, begin, end)` consumes one draw and maps it into
`[begin, end)`; when `end > begin` does not hold GLib's precondition check
returns `begin` without drawing. Every sequence of in-range results arises from
some stream. -/

/-- Generator state: the stream of raw draws and the number already consumed. -/
structure GRand where
  draws : Nat → Nat
  pos : Nat

/-- Conversion of an unsigned value to `gint32` (two's complement). -/
def toInt32 (n : Nat) : Int :=
  if n % 2 ^ 32 < 2 ^ 31 then ((n % 2 ^ 32 : Nat) : Int) else ((n % 2 ^ 32 : Nat) : Int) - 2 ^ 32

/-- Conversion of a `gint32` to `cl_uint`. -/
def toUInt32 (z : Int) : Nat := (z % 2 ^ 32).toNat

/-- Contract model of `g_rand_int_range (rng, begin, end)`. -/
def g_rand_int_range (rng : GRand) (begin_ end_ : Int) : Int × GRand :=
  if end_ > begin_ then
    (begin_ + (rng.draws rng.pos : Int) % (end_ - begin_), { rng with pos := rng.pos + 1 })
  else (begin_, rng)

/-! ## Host side initialisation performed by `ppc_buffers_init` -/

/-- Host view of the mapped regions together with the generator. The regions
are total maps from element index to record; their content before
initialisation is arbitrary. The maps carry no size: the matrix region of the
program holds `matrix_cells` cells, the agent region `MAX_AGENTS` slots and
the statistics region `iters + 1` records, and the statements about the
initialisation are made for grids with `grid_x * grid_y < 2 ^ 32`, for which
every index the host code uses lies inside its region. -/
structure HostMem where
  rng : GRand
  stats : Nat → PPStatistics
  matrix : Nat → PPCCell
  agents : Nat → PPCAgent

/-- Number of cells of the matrix region allocated by `ppc_datasizes_get`:
`dataSizes->matrix = params.grid_x * params.grid_y * sizeof(PPCCell)`, where
the product of the two `unsigned int` fields wraps at `2 ^ 32` before it is
widened. -/
def matrix_cells (params : PPParameters) : Nat := (params.grid_x * params.grid_y) % 2 ^ 32

/-- The loop `for (i = 1; i <= params.iters; i++) stats[i] = {0, 0, 0}` after
its first `k` iterations. -/
def stats_zero_loop (stats : Nat → PPStatistics) : Nat → (Nat → PPStatistics)
  | 0 => stats
  | k + 1 => Function.update (stats_zero_loop stats k) (k + 1) ⟨0, 0, 0⟩

/-- Statistics initialisation of `ppc_buffers_init`: record 0 receives the
initial populations and a grass count of 0, records `1 .. iters` are zeroed. -/
def ppc_stats_init (params : PPParameters) (h : HostMem) : HostMem :=
  { h with
    stats := stats_zero_loop
      (Function.update h.stats 0 ⟨params.init_sheep, params.init_wolves, 0⟩) params.iters }

/-- Grid index computed by the host, `i + j * params.grid_x` in `cl_uint`. -/
def gridIndex (params : PPParameters) (i j : Nat) : Nat := (i + j * params.grid_x) % 2 ^ 32

/-- Body of the grid loops for position `(i, j)`: draw the grass state, store
it, count it in `stats[0].grass` when it is zero, clear the agent pointer. -/
def grid_cell_init (params : PPParameters) (i j : Nat) (h : HostMem) : HostMem :=
  let idx := gridIndex params i j
  let coin := g_rand_int_range h.rng 0 2
  let drawn : Nat × GRand :=
    if coin.1 = 0 then (0, coin.2)
    else
      let r := g_rand_int_range coin.2 1 (toInt32 (params.grass_restart + 1))
      (toUInt32 r.1, r.2)
  let grassState := drawn.1
  let matrix1 := Function.update h.matrix idx { h.matrix idx with grass := grassState }
  let stats1 :=
    if grassState = 0 then
      Function.update h.stats 0 { h.stats 0 with grass := ((h.stats 0).grass + 1) % 2 ^ 32 }
    else h.stats
  let matrix2 := Function.update matrix1 idx { matrix1 idx with agent_pointer := NULL_AGENT_POINTER }
  { h with rng := drawn.2, stats := stats1, matrix := matrix2 }

/-- Inner loop `for (j = 0; j < params.grid_y; j++)` for a fixed `i`, after
its first `k` iterations. -/
def grid_inner_loop (params : PPParameters) (i : Nat) (h : HostMem) : Nat → HostMem
  | 0 => h
  | k + 1 => grid_cell_init params i k (grid_inner_loop params i h k)

/-- Outer loop `for (i = 0; i < params.grid_x; i++)` after its first `k`
iterations. -/
def grid_outer_loop (params : PPParameters) (h : HostMem) : Nat → HostMem
  | 0 => h
  | k + 1 => grid_inner_loop params k (grid_outer_loop params h k) params.grid_y

/-- Grid initialisation of `ppc_buffers_init`. -/
def ppc_matrix_init (params : PPParameters) (h : HostMem) : HostMem :=
  grid_outer_loop params h params.grid_x

/-- The loop
`while (agents[agindex].next != NULL_AGENT_POINTER) agindex = agents[agindex].next;`
with a bound on the number of evaluations of its condition; `none` when the
bound is exhausted. -/
def tail_walk (agents : Nat → PPCAgent) : Nat → Nat → Option Nat
  | 0, _ => none
  | fuel + 1, agindex =>
    if (agents agindex).next ≠ NULL_AGENT_POINTER then tail_walk agents fuel (agents agindex).next
    else some agindex

/-- Body of the agent loop for slot `i`. -/
def agent_slot_init (fuel : Nat) (params : PPParameters) (i : Nat) (h : HostMem) :
    Option HostMem :=
  if i < (params.init_sheep + params.init_wolves) % 2 ^ 32 then
    let dx := g_rand_int_range h.rng 0 (toInt32 params.grid_x)
    let x := toUInt32 dx.1
    let dy := g_rand_int_range dx.2 0 (toInt32 params.grid_y)
    let y := toUInt32 dy.1
    let agents1 := Function.update h.agents i { h.agents i with action := 0 }
    let agents2 := Function.update agents1 i { agents1 i with next := NULL_AGENT_POINTER }
    let idx := (x + y * params.grid_x) % 2 ^ 32
    let linked : Option ((Nat → PPCCell) × (Nat → PPCAgent)) :=
      if (h.matrix idx).agent_pointer = NULL_AGENT_POINTER then
        some (Function.update h.matrix idx { h.matrix idx with agent_pointer := i }, agents2)
      else
        (tail_walk agents2 fuel (h.matrix idx).agent_pointer).map fun agindex =>
          (h.matrix, Function.update agents2 agindex { agents2 agindex with next := i })
    linked.map fun ma =>
      if i < params.init_sheep then
        let de := g_rand_int_range dy.2 1 (toInt32 (params.sheep_gain_from_food * 2 + 1))
        { h with
          rng := de.2
          matrix := ma.1
          agents := Function.update ma.2 i { ma.2 i with energy := toUInt32 de.1, type := SHEEP_ID } }
      else
        let de := g_rand_int_range dy.2 1 (toInt32 (params.wolves_gain_from_food * 2 + 1))
        { h with
          rng := de.2
          matrix := ma.1
          agents := Function.update ma.2 i { ma.2 i with energy := toUInt32 de.1, type := WOLF_ID } }
  else
    some { h with
      agents := Function.update h.agents i
        { energy := 0, type := 0, action := 0, next := NULL_AGENT_POINTER } }

/-- The loop `for (i = 0; i < MAX_AGENTS; i++)` after its first `k` iterations. -/
def agent_loop (fuel : Nat) (params : PPParameters) (h : HostMem) : Nat → Option HostMem
  | 0 => some h
  | k + 1 => (agent_loop fuel params h k).bind (agent_slot_init fuel params k)

/-- Agent arena initialisation of `ppc_buffers_init`. -/
def ppc_agents_init (fuel : Nat) (params : PPParameters) (h : HostMem) : Option HostMem :=
  agent_loop fuel params h MAX_AGENTS

/-- Host side data initialisation of `ppc_buffers_init` when every device call
succeeds: statistics, grid, agent arena, in that order. -/
def ppc_buffers_init_host (fuel : Nat) (params : PPParameters) (h : HostMem) : Option HostMem :=
  ppc_agents_init fuel params (ppc_matrix_init params (ppc_stats_init params h))

/-- Follow the `next` links from `p`: the occupants in list order, or `none`
when the null sentinel is not reached within `fuel` hops. -/
def occupants (agents : Nat → PPCAgent) : Nat → Nat → Option (List Nat)
  | 0, p => if p = NULL_AGENT_POINTER then some [] else none
  | fuel + 1, p =>
    if p = NULL_AGENT_POINTER then some []
    else (occupants agents fuel (agents p).next).map fun l => p :: l

/-- Number of cells among the first `n` of the grid whose grass timer is 0. -/
def edible_cells (matrix : Nat → PPCCell) (n : Nat) : Nat :=
  ((List.range n).filter fun c => (matrix c).grass = 0).length

/-- Indicator of an edible cell: 1 when the grass timer of cell `c` is 0. -/
def edible (matrix : Nat → PPCCell) (c : Nat) : Nat := if (matrix c).grass = 0 then 1 else 0

/-! ## Occupant lists and the draws of the agent loop -/

/-- The links `next` starting at `p` run through exactly the slots of `l`, in
order, and end at the null sentinel. -/
def Chain (agents : Nat → PPCAgent) : Nat → List Nat → Prop
  | p, [] => p = NULL_AGENT_POINTER
  | p, a :: l => p = a ∧ a ≠ NULL_AGENT_POINTER ∧ Chain agents (agents a).next l

/-- Index `c` addresses a position of the grid. -/
def InGrid (params : PPParameters) (c : Nat) : Prop :=
  ∃ i j, i < params.grid_x ∧ j < params.grid_y ∧ c = gridIndex params i j

/-- Cell index `x + y * grid_x` drawn for a new agent from generator state
`rng` (the two coordinate draws of the agent loop). -/
def place_cell (params : PPParameters) (rng : GRand) : Nat :=
  let dx := g_rand_int_range rng 0 (toInt32 params.grid_x)
  let dy := g_rand_int_range dx.2 0 (toInt32 params.grid_y)
  (toUInt32 dx.1 + toUInt32 dy.1 * params.grid_x) % 2 ^ 32

/-- Upper end of the energy range of slot `i`: `gain_from_food * 2 + 1` of its
species. -/
def energy_end (params : PPParameters) (i : Nat) : Nat :=
  if i < params.init_sheep then params.sheep_gain_from_food * 2 + 1
  else params.wolves_gain_from_food * 2 + 1

/-- Species tag given to populated slot `i`. -/
def slot_type (params : PPParameters) (i : Nat) : Nat :=
  if i < params.init_sheep then SHEEP_ID else WOLF_ID

/-- Energy drawn for populated slot `i` from generator state `rng` (third draw
of the slot). -/
def slot_energy (params : PPParameters) (i : Nat) (rng : GRand) : Nat :=
  let dx := g_rand_int_range rng 0 (toInt32 params.grid_x)
  let dy := g_rand_int_range dx.2 0 (toInt32 params.grid_y)
  toUInt32 (g_rand_int_range dy.2 1 (toInt32 (energy_end params i))).1

/-- Generator state after the three draws of populated slot `i`. -/
def rng_after_slot (params : PPParameters) (i : Nat) (rng : GRand) : GRand :=
  let dx := g_rand_int_range rng 0 (toInt32 params.grid_x)
  let dy := g_rand_int_range dx.2 0 (toInt32 params.grid_y)
  (g_rand_int_range dy.2 1 (toInt32 (energy_end params i))).2

/-- Generator state before slot `k` is initialised, when the agent loop starts
from `rng0` and slots `0 .. k-1` are populated. -/
def agent_rng (params : PPParameters) (rng0 : GRand) : Nat → GRand
  | 0 => rng0
  | k + 1 => rng_after_slot params k (agent_rng params rng0 k)

/-- Cell drawn for agent `a` when the agent loop starts from `rng0`. -/
def drawn_cell (params : PPParameters) (rng0 : GRand) (a : Nat) : Nat :=
  place_cell params (agent_rng params rng0 a)

/-- The agents among the first `m` whose drawn cell is `c`, in increasing
index order. -/
def cell_agents (params : PPParameters) (rng0 : GRand) (m c : Nat) : List Nat :=
  (List.range m).filter fun a => drawn_cell params rng0 a = c

/-- Number of populated slots: `params.init_sheep + params.init_wolves` in
`unsigned int` arithmetic. -/
def population (params : PPParameters) : Nat :=
  (params.init_sheep + params.init_wolves) % 2 ^ 32

/-- The record of an unused slot. -/
def empty_agent : PPCAgent := { energy := 0, type := 0, action := 0, next := NULL_AGENT_POINTER }

/-- State of the host memory after the first `m` slots have been populated,
starting from `h0`. -/
structure AgentInv (params : PPParameters) (h0 : HostMem) (m : Nat) (h : HostMem) : Prop where
  rng_eq : h.rng = agent_rng params h0.rng m
  stats_eq : h.stats = h0.stats
  grass_eq : ∀ c, (h.matrix c).grass = (h0.matrix c).grass
  chain : ∀ c, InGrid params c →
    Chain h.agents (h.matrix c).agent_pointer (cell_agents params h0.rng m c)
  species : ∀ a, a < m →
    (h.agents a).type = slot_type params a ∧ (h.agents a).action = 0
  next_lt : ∀ a, a < m →
    (h.agents a).next = NULL_AGENT_POINTER ∨ (h.agents a).next < m
  head_lt : ∀ c, InGrid params c →
    (h.matrix c).agent_pointer = NULL_AGENT_POINTER ∨ (h.matrix c).agent_pointer < m

/-! ## Statistics output -/

/-- The conversion `%d` of `fprintf` applied to a `cl_uint` argument: the 32
bits are printed as a signed decimal integer. -/
def fprintf_d (v : Nat) : String := toString (toInt32 v)

/-- One output line, `fprintf(fp1, "%d\t%d\t%d\n", sheep, wolves, grass)`. -/
def stats_line (s : PPStatistics) : String :=
  fprintf_d s.sheep ++ "\t" ++ fprintf_d s.wolves ++ "\t" ++ fprintf_d s.grass ++ "\n"

/-- The loop `for (i = 0; i <= params.iters; i++) fprintf(...)` after its first
`k` iterations: the lines written so far. -/
def stats_lines (stats : Nat → PPStatistics) : Nat → List String
  | 0 => []
  | k + 1 => stats_lines stats k ++ [stats_line (stats k)]

/-- Text written to the statistics file by `ppc_stats_get`. -/
def ppc_stats_get_output (params : PPParameters) (stats : Nat → PPStatistics) : List String :=
  stats_lines stats (params.iters + 1)

/-! ## Device runtime, events and control flow

Calls into the OpenCL runtime are fallible, and so is the `fopen` of the
statistics file. The runtime is a parameter `env`: it maps the events so far
and the call about to be made to the status the call returns (`0` is
`CL_SUCCESS`). The host program is modelled by its effect on a log of
events. -/

/-- The two kernels. -/
inductive Kernel
  | step1
  | step2
  deriving DecidableEq, Repr

/-- The five device regions. -/
inductive Region
  | stats
  | matrix
  | agents
  | rng_seeds
  | agent_params
  deriving DecidableEq, Repr

/-- Value bound to a kernel argument. -/
inductive ArgValue
  | mem (r : Region)
  | uint (v : Nat)
  | simparams (s : PPCSimParams)
  deriving DecidableEq, Repr

/-- Fallible calls made by the host. -/
inductive DevOp
  | zone_new
  | program_create
  | create_kernel (k : Kernel)
  | create_buffer (r : Region)
  | map_buffer (r : Region)
  | unmap_mem_object (r : Region)
  | set_kernel_arg (k : Kernel) (index : Nat) (v : ArgValue)
  | enqueue_ndrange_kernel (k : Kernel) (global_work_size local_work_size : Nat)
  | finish
  /-- The C library call `fopen(filename, "w")` of `ppc_stats_get`; status
  `0` stands for a non-null `FILE` pointer. -/
  | fopen
  deriving DecidableEq, Repr

/-- Observable events of a run, in program order. -/
inductive Event
  /-- A runtime call whose status the host tests. -/
  | call (op : DevOp) (status : Int)
  /-- A runtime call whose status the host discards. -/
  | call_unchecked (op : DevOp) (status : Int)
  /-- The diagnostic printed at label `error`. -/
  | error_report
  /-- The statistics file written by `ppc_stats_get`. -/
  | stats_write (lines : List String)
  | release_kernel (k : Kernel)
  | release_mem_object (r : Region)
  | zone_free
  | events_free
  | profile_free
  | rand_free
  deriving DecidableEq, Repr

/-- Kernel handles (`PPCKernels`); `true` stands for a non-null handle. -/
structure PPCKernels where
  step1 : Bool
  step2 : Bool
  deriving DecidableEq, Repr

/-- Device region handles (`PPCBuffersDevice`); `true` stands for a non-null
handle. -/
structure PPCBuffersDevice where
  stats : Bool
  matrix : Bool
  agents : Bool
  rng_seeds : Bool
  agent_params : Bool
  deriving DecidableEq, Repr

/-- State of the host program. -/
structure Host where
  log : List Event
  mem : HostMem
  krnls : PPCKernels
  buffersDevice : PPCBuffersDevice

/-- How a host function ends: it returns `CL_SUCCESS` (`ok`), it returns a
failure status with the error object set (`error`), or it never returns
(`fault`: undefined behaviour or a loop that does not terminate). -/
inductive Outcome (α : Type)
  | ok (a : α)
  | error
  | fault

/-- A host computation. -/
def Run (α : Type) : Type := Host → Outcome α × Host

/-- Sequencing: a failure status or a fault ends the enclosing function at
once (`clu_if_error_create_error_return`, `clu_if_error_goto`). -/
def Run.bind {α β : Type} (m : Run α) (f : α → Run β) : Run β := fun w =>
  match m w with
  | (Outcome.ok a, w') => f a w'
  | (Outcome.error, w') => (Outcome.error, w')
  | (Outcome.fault, w') => (Outcome.fault, w')

instance : Monad Run where
  pure a := fun w => (Outcome.ok a, w)
  bind := Run.bind

/-- A runtime call followed by the test of its status. -/
def call (env : List Event → DevOp → Int) (op : DevOp) : Run Unit := fun w =>
  let status := env w.log op
  let w' := { w with log := w.log ++ [Event.call op status] }
  if status = 0 then (Outcome.ok (), w') else (Outcome.error, w')

/-- A runtime call whose status is not looked at. -/
def call_unchecked (env : List Event → DevOp → Int) (op : DevOp) : Run Unit := fun w =>
  (Outcome.ok (), { w with log := w.log ++ [Event.call_unchecked op (env w.log op)] })

/-- An event that cannot fail. -/
def emit (e : Event) : Run Unit := fun w => (Outcome.ok (), { w with log := w.log ++ [e] })

/-- Update of the mapped host memory. -/
def modify_mem (f : HostMem → HostMem) : Run Unit := fun w =>
  (Outcome.ok (), { w with mem := f w.mem })

/-- Update of the mapped host memory by a loop that may not terminate. -/
def modify_mem_opt (f : HostMem → Option HostMem) : Run Unit := fun w =>
  match f w.mem with
  | some m => (Outcome.ok (), { w with mem := m })
  | none => (Outcome.fault, w)

/-- Store a region handle. -/
def PPCBuffersDevice.set (b : PPCBuffersDevice) (r : Region) (v : Bool) : PPCBuffersDevice :=
  match r with
  | Region.stats => { b with stats := v }
  | Region.matrix => { b with matrix := v }
  | Region.agents => { b with agents := v }
  | Region.rng_seeds => { b with rng_seeds := v }
  | Region.agent_params => { b with agent_params := v }

/-- `buffersDevice->r = clCreateBuffer(..., &status)` followed by the test of
the status; the handle is null when the call fails. -/
def create_buffer (env : List Event → DevOp → Int) (r : Region) : Run Unit := fun w =>
  let status := env w.log (DevOp.create_buffer r)
  let w' := { w with
    log := w.log ++ [Event.call (DevOp.create_buffer r) status]
    buffersDevice := w.buffersDevice.set r (decide (status = 0)) }
  if status = 0 then (Outcome.ok (), w') else (Outcome.error, w')

/-- `krnls->k = clCreateKernel(..., &status)` followed by the test of the
status. -/
def create_kernel (env : List Event → DevOp → Int) (k : Kernel) : Run Unit := fun w =>
  let status := env w.log (DevOp.create_kernel k)
  let krnls' : PPCKernels :=
    match k with
    | Kernel.step1 => { w.krnls with step1 := decide (status = 0) }
    | Kernel.step2 => { w.krnls with step2 := decide (status = 0) }
  let w' := { w with log := w.log ++ [Event.call (DevOp.create_kernel k) status], krnls := krnls' }
  if status = 0 then (Outcome.ok (), w') else (Outcome.error, w')

/-- Embedding of `ppc_kernels_create`. -/
def ppc_kernels_create (env : List Event → DevOp → Int) : Run Unit := do
  create_kernel env Kernel.step1
  create_kernel env Kernel.step2

/-- Embedding of `ppc_buffers_init`: creation of the five regions, then the
mapping scopes with the host side initialisation inside them. The seed table
(a floating point computation) and the species table are written inside their
scopes; their content is not represented. -/
def ppc_buffers_init (env : List Event → DevOp → Int) (fuel : Nat) (params : PPParameters) :
    Run Unit := do
  create_buffer env Region.stats
  create_buffer env Region.matrix
  create_buffer env Region.agents
  create_buffer env Region.rng_seeds
  create_buffer env Region.agent_params
  call env (DevOp.map_buffer Region.stats)
  modify_mem (ppc_stats_init params)
  call env (DevOp.map_buffer Region.matrix)
  modify_mem (ppc_matrix_init params)
  call env (DevOp.unmap_mem_object Region.stats)
  call env (DevOp.map_buffer Region.agents)
  modify_mem_opt (ppc_agents_init fuel params)
  call env (DevOp.unmap_mem_object Region.agents)
  call env (DevOp.unmap_mem_object Region.matrix)
  call env (DevOp.map_buffer Region.rng_seeds)
  call env (DevOp.unmap_mem_object Region.rng_seeds)
  call env (DevOp.map_buffer Region.agent_params)
  call env (DevOp.unmap_mem_object Region.agent_params)

/-- Embedding of `ppc_kernelargs_set`. -/
def ppc_kernelargs_set (env : List Event → DevOp → Int) (simParams : PPCSimParams) :
    Run Unit := do
  call env (DevOp.set_kernel_arg Kernel.step1 0 (ArgValue.mem Region.agents))
  call env (DevOp.set_kernel_arg Kernel.step1 1 (ArgValue.mem Region.matrix))
  call env (DevOp.set_kernel_arg Kernel.step1 2 (ArgValue.mem Region.rng_seeds))
  call env (DevOp.set_kernel_arg Kernel.step1 4 (ArgValue.simparams simParams))
  call env (DevOp.set_kernel_arg Kernel.step2 0 (ArgValue.mem Region.agents))
  call env (DevOp.set_kernel_arg Kernel.step2 1 (ArgValue.mem Region.matrix))
  call env (DevOp.set_kernel_arg Kernel.step2 2 (ArgValue.mem Region.rng_seeds))
  call env (DevOp.set_kernel_arg Kernel.step2 3 (ArgValue.mem Region.stats))
  call env (DevOp.set_kernel_arg Kernel.step2 6 (ArgValue.simparams simParams))
  call env (DevOp.set_kernel_arg Kernel.step2 7 (ArgValue.mem Region.agent_params))

/-- The loop `for (turn = 0; turn < workSizes.rows_per_workitem; turn++)` of
step 1 after its first `n` iterations. The local size passed is
`num_work_items = 1`. -/
def step1_turns (env : List Event → DevOp → Int) (workSizes : PPCWorkSizes) : Nat → Run Unit
  | 0 => pure ()
  | n + 1 => do
    step1_turns env workSizes n
    call env (DevOp.set_kernel_arg Kernel.step1 3 (ArgValue.uint n))
    call env (DevOp.enqueue_ndrange_kernel Kernel.step1 workSizes.gws 1)

/-- The loop `for (turn = 0; turn < workSizes.rows_per_workitem; turn++)` of
step 2 after its first `n` iterations. -/
def step2_turns (env : List Event → DevOp → Int) (workSizes : PPCWorkSizes) : Nat → Run Unit
  | 0 => pure ()
  | n + 1 => do
    step2_turns env workSizes n
    call env (DevOp.set_kernel_arg Kernel.step2 5 (ArgValue.uint n))
    call env (DevOp.enqueue_ndrange_kernel Kernel.step2 workSizes.gws 1)

/-- The simulation loop `for (iter = 1; iter <= params.iters; iter++)` after
its first `n` iterations. -/
def simulation_loop (env : List Event → DevOp → Int) (workSizes : PPCWorkSizes) :
    Nat → Run Unit
  | 0 => pure ()
  | n + 1 => do
    simulation_loop env workSizes n
    step1_turns env workSizes workSizes.rows_per_workitem
    call env (DevOp.set_kernel_arg Kernel.step2 4 (ArgValue.uint (n + 1)))
    step2_turns env workSizes workSizes.rows_per_workitem

/-- Embedding of `ppc_simulate`: an unchecked `clFinish`, then the simulation
loop. -/
def ppc_simulate (env : List Event → DevOp → Int) (workSizes : PPCWorkSizes)
    (params : PPParameters) : Run Unit := do
  call_unchecked env DevOp.finish
  simulation_loop env workSizes params.iters

/-- Embedding of `ppc_stats_get`: map the statistics region, open the file,
write it, unmap.

```
FILE * fp1 = fopen(filename, "w");
for (unsigned int i = 0; i <= params.iters; i++)
    fprintf(fp1, "%d\t%d\t%d\n", ...);
fclose(fp1);
```

The result of `fopen` is not tested: when it is null the first `fprintf`
dereferences a null pointer and the run ends on the spot, before the unmap. -/
def ppc_stats_get (env : List Event → DevOp → Int) (params : PPParameters) : Run Unit := do
  call env (DevOp.map_buffer Region.stats)
  (fun w =>
    if env w.log DevOp.fopen = 0 then
      emit (Event.stats_write (ppc_stats_get_output params w.mem.stats)) w
    else (Outcome.fault, w) : Run Unit)
  call env (DevOp.unmap_mem_object Region.stats)

/-- Embedding of `ppc_kernels_free`: the events it causes. -/
def ppc_kernels_free (krnls : PPCKernels) : List Event :=
  (if krnls.step1 then [Event.release_kernel Kernel.step1] else []) ++
  (if krnls.step2 then [Event.release_kernel Kernel.step2] else [])

/-- Embedding of `ppc_devicebuffers_free`: the releases it performs, in order.

```
if (buffersDevice->stats) clReleaseMemObject(buffersDevice->stats);
if (buffersDevice->agents) clReleaseMemObject(buffersDevice->agents);
if (buffersDevice->matrix) clReleaseMemObject(buffersDevice->matrix);
if (buffersDevice->stats) clReleaseMemObject(buffersDevice->stats);
if (buffersDevice->rng_seeds) clReleaseMemObject(buffersDevice->rng_seeds);
``` -/
def ppc_devicebuffers_free (buffersDevice : PPCBuffersDevice) : List Region :=
  (if buffersDevice.stats then [Region.stats] else []) ++
  (if buffersDevice.agents then [Region.agents] else []) ++
  (if buffersDevice.matrix then [Region.matrix] else []) ++
  (if buffersDevice.stats then [Region.stats] else []) ++
  (if buffersDevice.rng_seeds then [Region.rng_seeds] else [])

/-- The part of `main` from label `cleanup` on. -/
def main_cleanup (w : Host) : List Event :=
  ppc_kernels_free w.krnls ++
  (ppc_devicebuffers_free w.buffersDevice).map Event.release_mem_object ++
  [Event.zone_free, Event.events_free, Event.profile_free, Event.rand_free]

/-- The part of `main` between the declarations and `goto cleanup`. The
parameters are those returned by `pp_load_params`; `cu` is the number of
compute units of the zone. -/
def main_body (env : List Event → DevOp → Int) (fuel : Nat) (args_values : PPCArgs)
    (cu : Nat) (params : PPParameters) : Run Unit := do
  call env DevOp.zone_new
  call env DevOp.program_create
  let workSizes ← (fun w =>
    match ppc_numthreads_get args_values cu params.grid_y with
    | some ws => (Outcome.ok ws, w)
    | none => (Outcome.fault, w) : Run PPCWorkSizes)
  let simParams := ppc_simparams_init params NULL_AGENT_POINTER params.grid_y
  ppc_kernels_create env
  ppc_buffers_init env fuel params
  ppc_kernelargs_set env simParams
  ppc_simulate env workSizes params
  ppc_stats_get env params
  call env DevOp.finish

/-- Initial state of `main`: empty log, null handles, host memory `mem`. -/
def main_init (mem : HostMem) : Host :=
  { log := [], mem := mem, krnls := ⟨false, false⟩,
    buffersDevice := ⟨false, false, false, false, false⟩ }

/-- Embedding of `main`: the events of a run. After a failure status the
error is reported and control falls through to `cleanup`; after success
control jumps to `cleanup`; a fault ends the run on the spot. -/
def main (env : List Event → DevOp → Int) (fuel : Nat) (args_values : PPCArgs)
    (cu : Nat) (params : PPParameters) (mem : HostMem) : List Event :=
  match main_body env fuel args_values cu params (main_init mem) with
  | (Outcome.ok _, w) => w.log ++ main_cleanup w
  | (Outcome.error, w) => w.log ++ [Event.error_report] ++ main_cleanup w
  | (Outcome.fault, w) => w.log

/-- Every tested call among the events succeeded. -/
def AllOk (l : List Event) : Prop := ∀ op status, Event.call op status ∈ l → status = 0

/-- Events caused by the teardown code. -/
def Event.is_teardown : Event → Bool
  | Event.release_kernel _ => true
  | Event.release_mem_object _ => true
  | Event.zone_free => true
  | Event.events_free => true
  | Event.profile_free => true
  | Event.rand_free => true
  | _ => false

/-- A runtime in which every call succeeds. -/
def env_ok : List Event → DevOp → Int := fun _ _ => 0

/-- A runtime in which the creation of the matrix region fails with
`CL_MEM_OBJECT_ALLOCATION_FAILURE` (-4) and every other call succeeds. -/
def env_matrix_fails : List Event → DevOp → Int := fun _ op =>
  if op = DevOp.create_buffer Region.matrix then -4 else 0

/-- What a host function that ended with outcome `o` has appended to the log:
after `ok` and `fault` every tested call in it succeeded; after `error` it
ends with the one tested call that failed. -/
def Trail {α : Type} : Outcome α → List Event → Prop
  | Outcome.ok _, ext => AllOk ext
  | Outcome.fault, ext => AllOk ext
  | Outcome.error, ext =>
    ∃ pre op status, ext = pre ++ [Event.call op status] ∧ status ≠ 0 ∧ AllOk pre

/-- A host computation only appends to the log, and what it appends is a
trail of its outcome. -/
def Sound {α : Type} (m : Run α) : Prop :=
  ∀ w, ∃ ext, (m w).2.log = w.log ++ ext ∧ Trail (m w).1 ext

/-! ## The dispatch sequence of a run in words

The sequence of device operations that the simulation driver is to issue,
written down independently of the loops of `ppc_simulate`. -/

/-- One step-1 turn: bind the turn number to argument 3 of `step1`, then
dispatch `step1` over `gws` work-items with local size 1. -/
def step1_turn_events (gws turn : Nat) : List Event :=
  [Event.call (DevOp.set_kernel_arg Kernel.step1 3 (ArgValue.uint turn)) 0,
   Event.call (DevOp.enqueue_ndrange_kernel Kernel.step1 gws 1) 0]

/-- One step-2 turn: bind the turn number to argument 5 of `step2`, then
dispatch `step2` over `gws` work-items with local size 1. -/
def step2_turn_events (gws turn : Nat) : List Event :=
  [Event.call (DevOp.set_kernel_arg Kernel.step2 5 (ArgValue.uint turn)) 0,
   Event.call (DevOp.enqueue_ndrange_kernel Kernel.step2 gws 1) 0]

/-- One iteration: the step-1 turns `0 .. rows_per_workitem - 1`, the binding
of the iteration number to argument 4 of `step2`, the step-2 turns
`0 .. rows_per_workitem - 1`. -/
def iteration_events (workSizes : PPCWorkSizes) (iter : Nat) : List Event :=
  (List.range workSizes.rows_per_workitem).flatMap (step1_turn_events workSizes.gws) ++
  [Event.call (DevOp.set_kernel_arg Kernel.step2 4 (ArgValue.uint iter)) 0] ++
  (List.range workSizes.rows_per_workitem).flatMap (step2_turn_events workSizes.gws)

/-- The iterations `1, 2, ..., iters`, one after the other. -/
def simulation_events (workSizes : PPCWorkSizes) (iters : Nat) : List Event :=
  (List.range iters).flatMap fun i => iteration_events workSizes (i + 1)

/-- The event is a kernel dispatch. -/
def Event.is_dispatch : Event → Bool
  | Event.call (DevOp.enqueue_ndrange_kernel _ _ _) _ => true
  | Event.call_unchecked (DevOp.enqueue_ndrange_kernel _ _ _) _ => true
  | _ => false

/-- The event is a `clFinish`, the host waiting for the device. -/
def Event.is_finish : Event → Bool
  | Event.call DevOp.finish _ => true
  | Event.call_unchecked DevOp.finish _ => true
  | _ => false

/-- The event is an argument binding or a kernel dispatch whose status the
host tests. -/
def Event.is_binding_or_dispatch : Event → Bool
  | Event.call (DevOp.set_kernel_arg _ _ _) _ => true
  | Event.call (DevOp.enqueue_ndrange_kernel _ _ _) _ => true
  | _ => false

/-- The event is a failed step: a runtime call that returned a non-success
status, whether the host tests the status or discards it. The one call left
out is a `clFinish` whose status is discarded, which is neither the creation
or mapping of a region, nor an argument binding, nor a dispatch. -/
def Event.is_failed_step : Event → Bool
  | Event.call _ status => decide (status ≠ 0)
  | Event.call_unchecked op status => decide (status ≠ 0) && decide (op ≠ DevOp.finish)
  | _ => false

/-- The only call whose status the host discards is a `clFinish`. -/
def Event.unchecked_is_finish : Event → Prop
  | Event.call_unchecked op _ => op = DevOp.finish
  | _ => True

/-- A host computation only appends events that satisfy `P`. -/
def Appends {α : Type} (P : Event → Prop) (m : Run α) : Prop :=
  ∀ w, ∃ ext, (m w).2.log = w.log ++ ext ∧ ∀ e, e ∈ ext → P e

/-- The device operations of a successful setup, up to the end of
`ppc_buffers_init`: zone, program, the two kernels, the five regions, and the
mapping scopes of the host initialisation. -/
def setup_events : List Event :=
  [Event.call DevOp.zone_new 0,
   Event.call DevOp.program_create 0,
   Event.call (DevOp.create_kernel Kernel.step1) 0,
   Event.call (DevOp.create_kernel Kernel.step2) 0,
   Event.call (DevOp.create_buffer Region.stats) 0,
   Event.call (DevOp.create_buffer Region.matrix) 0,
   Event.call (DevOp.create_buffer Region.agents) 0,
   Event.call (DevOp.create_buffer Region.rng_seeds) 0,
   Event.call (DevOp.create_buffer Region.agent_params) 0,
   Event.call (DevOp.map_buffer Region.stats) 0,
   Event.call (DevOp.map_buffer Region.matrix) 0,
   Event.call (DevOp.unmap_mem_object Region.stats) 0,
   Event.call (DevOp.map_buffer Region.agents) 0,
   Event.call (DevOp.unmap_mem_object Region.agents) 0,
   Event.call (DevOp.unmap_mem_object Region.matrix) 0,
   Event.call (DevOp.map_buffer Region.rng_seeds) 0,
   Event.call (DevOp.unmap_mem_object Region.rng_seeds) 0,
   Event.call (DevOp.map_buffer Region.agent_params) 0,
   Event.call (DevOp.unmap_mem_object Region.agent_params) 0]

/-- The ten successful argument bindings of `ppc_kernelargs_set` for the
record `simParams`. -/
def kernelargs_events (simParams : PPCSimParams) : List Event :=
  [Event.call (DevOp.set_kernel_arg Kernel.step1 0 (ArgValue.mem Region.agents)) 0,
   Event.call (DevOp.set_kernel_arg Kernel.step1 1 (ArgValue.mem Region.matrix)) 0,
   Event.call (DevOp.set_kernel_arg Kernel.step1 2 (ArgValue.mem Region.rng_seeds)) 0,
   Event.call (DevOp.set_kernel_arg Kernel.step1 4 (ArgValue.simparams simParams)) 0,
   Event.call (DevOp.set_kernel_arg Kernel.step2 0 (ArgValue.mem Region.agents)) 0,
   Event.call (DevOp.set_kernel_arg Kernel.step2 1 (ArgValue.mem Region.matrix)) 0,
   Event.call (DevOp.set_kernel_arg Kernel.step2 2 (ArgValue.mem Region.rng_seeds)) 0,
   Event.call (DevOp.set_kernel_arg Kernel.step2 3 (ArgValue.mem Region.stats)) 0,
   Event.call (DevOp.set_kernel_arg Kernel.step2 6 (ArgValue.simparams simParams)) 0,
   Event.call (DevOp.set_kernel_arg Kernel.step2 7 (ArgValue.mem Region.agent_params)) 0]

/-- The events of a run of `main` in which every device call and the `fopen` of
the statistics file succeed, up to `goto cleanup`: setup, argument bindings,
the simulation, the statistics read-out and the final `clFinish`. -/
def success_events (workSizes : PPCWorkSizes) (params : PPParameters)
    (simParams : PPCSimParams) (stats : Nat → PPStatistics) : List Event :=
  setup_events ++ kernelargs_events simParams ++
  Event.call_unchecked DevOp.finish 0 :: simulation_events workSizes params.iters ++
  [Event.call (DevOp.map_buffer Region.stats) 0,
   Event.stats_write (ppc_stats_get_output params stats),
   Event.call (DevOp.unmap_mem_object Region.stats) 0,
   Event.call DevOp.finish 0]

/-! ## Example configuration -/

/-- A small configuration: a 3 by 2 grid, 3 sheep, 2 wolves, 2 iterations. -/
def example_params : PPParameters :=
  { init_sheep := 3, sheep_gain_from_food := 4, sheep_reproduce_threshold := 2,
    sheep_reproduce_prob := 4, init_wolves := 2, wolves_gain_from_food := 20,
    wolves_reproduce_threshold := 2, wolves_reproduce_prob := 5, grass_restart := 10,
    grid_x := 3, grid_y := 2, iters := 2 }

/-- Host memory with arbitrary content and a generator whose raw draws are
`0, 3, 6, ...`. -/
def example_mem : HostMem :=
  { rng := ⟨fun n => 3 * n, 0⟩
    stats := fun _ => ⟨7, 7, 7⟩
    matrix := fun _ => ⟨9, 9⟩
    agents := fun _ => ⟨5, 5, 5, 5⟩ }

/-- The example configuration on a grid of height 6. -/
def example_params_tall : PPParameters := { example_params with grid_y := 6 }

/-- The example configuration with an initial prey count of 3000000000 and no
iterations. -/
def example_params_big : PPParameters :=
  { example_params with init_sheep := 3000000000, iters := 0 }

/-- The example configuration on a grid of height 9. -/
def example_params_nine : PPParameters := { example_params with grid_y := 9 }

theorem MIN_eq_min (a b : Nat) : MIN a b = min a b := by
  unfold MIN
  split
  · omega
  · omega

theorem ceil_div_eq (H g : Nat) (hg : 0 < g) :
    H / g + (if H % g > 0 then 1 else 0) = ⌈(H : ℚ) / (g : ℚ)⌉₊ := by
  symm
  have hgq : (0 : ℚ) < (g : ℚ) := by exact_mod_cast hg
  have hdm : g * (H / g) + H % g = H := Nat.div_add_mod H g
  have hlt : H % g < g := Nat.mod_lt H hg
  by_cases hr : H % g > 0
  · rw [if_pos hr]
    rw [Nat.ceil_eq_iff (Nat.add_one_ne_zero _)]
    constructor
    · rw [lt_div_iff₀ hgq]
      have : (H / g) * g < H := by nlinarith
      rw [Nat.add_sub_cancel]
      exact_mod_cast this
    · rw [div_le_iff₀ hgq]
      have : H ≤ (H / g + 1) * g := by nlinarith
      exact_mod_cast this
  · rw [if_neg hr]
    have h0 : H % g = 0 := by omega
    have hH : H = (H / g) * g := by nlinarith
    have : (H : ℚ) / (g : ℚ) = ((H / g : ℕ) : ℚ) := by
      rw [div_eq_iff (ne_of_gt hgq)]
      exact_mod_cast hH
    rw [this]
    simp

theorem ppc_numthreads_get_some (args : PPCArgs) (cu H : Nat)
    (hg : MIN args.gws (H / 3) ≠ 0) :
    ppc_numthreads_get args cu H = some
      { max_gws := H / 3
        gws := MIN args.gws (H / 3)
        rows_per_workitem :=
          H / MIN args.gws (H / 3) + (if H % MIN args.gws (H / 3) > 0 then 1 else 0)
        lws := args.lws } := by
  unfold ppc_numthreads_get
  simp only [hg, if_false]

theorem ppc_numthreads_get_none (args : PPCArgs) (cu H : Nat)
    (hg : MIN args.gws (H / 3) = 0) :
    ppc_numthreads_get args cu H = none := by
  unfold ppc_numthreads_get
  simp only [hg, if_true]

theorem ppc_numthreads_get_ok (args : PPCArgs) (cu H : Nat)
    (hH : 3 ≤ H) (hW : 1 ≤ args.gws) :
    0 < MIN args.gws (H / 3) ∧
    ppc_numthreads_get args cu H = some
      { max_gws := H / 3
        gws := MIN args.gws (H / 3)
        rows_per_workitem :=
          H / MIN args.gws (H / 3) + (if H % MIN args.gws (H / 3) > 0 then 1 else 0)
        lws := args.lws } := by
  have hpos : 0 < MIN args.gws (H / 3) := by rw [MIN_eq_min]; omega
  exact ⟨hpos, ppc_numthreads_get_some args cu H (by omega)⟩

/-! ## Claims about the partitioner -/

/-- C1: for every grid height `H ≥ 3` and every requested worker count
`W_req ≥ 1`, `ppc_numthreads_get` returns with `max_gws = floor(H/3)`,
`gws = min(W_req, max_gws)`, hence `gws ≤ floor(H/3)`, and
`rows_per_workitem = ceil(H / gws)`. -/
theorem ppc_numthreads_get_spec (args : PPCArgs) (cu H : Nat)
    (hH : 3 ≤ H) (hW : 1 ≤ args.gws) :
    ∃ ws : PPCWorkSizes, ppc_numthreads_get args cu H = some ws ∧
      ws.max_gws = H / 3 ∧
      ws.gws = min args.gws ws.max_gws ∧
      ws.gws ≤ H / 3 ∧
      ws.rows_per_workitem = ⌈(H : ℚ) / (ws.gws : ℚ)⌉₊ := by
  have h3 : 1 ≤ H / 3 := by omega
  have hmin : MIN args.gws (H / 3) = min args.gws (H / 3) := MIN_eq_min _ _
  have hpos : 0 < MIN args.gws (H / 3) := by rw [hmin]; omega
  refine ⟨_, ppc_numthreads_get_some args cu H (by omega), rfl, ?_, ?_, ?_⟩
  · exact hmin
  · show MIN args.gws (H / 3) ≤ H / 3
    rw [hmin]; omega
  · exact ceil_div_eq H _ hpos

/-- Witness for C1: a grid of height 10 with 2 requested workers. -/
theorem ppc_numthreads_get_spec_witness :
    ∃ ws : PPCWorkSizes, ppc_numthreads_get ⟨2, 0⟩ 4 10 = some ws ∧
      ws.max_gws = 10 / 3 ∧
      ws.gws = min (2 : Nat) ws.max_gws ∧
      ws.gws ≤ 10 / 3 ∧
      ws.rows_per_workitem = ⌈((10 : Nat) : ℚ) / (ws.gws : ℚ)⌉₊ :=
  ppc_numthreads_get_spec ⟨2, 0⟩ 4 10 (by decide) (by decide)

/-- With no requested count (`args.gws = 0`) the effective count is
`MIN(0, max_gws) = 0` for every grid height, and the row computation divides
by it. -/
theorem ppc_numthreads_get_unrequested (lws cu H : Nat) :
    MIN 0 (H / 3) = 0 ∧ ppc_numthreads_get ⟨0, lws⟩ cu H = none := by
  have h : MIN 0 (H / 3) = 0 := by
    rw [MIN_eq_min]; omega
  exact ⟨h, ppc_numthreads_get_none ⟨0, lws⟩ cu H h⟩

/-- For a grid of fewer than three rows the maximum is `0`, so the effective
count is `0` whatever was requested, and the row computation divides by it. -/
theorem ppc_numthreads_get_small_grid (args : PPCArgs) (cu H : Nat) (hH : H < 3) :
    MIN args.gws (H / 3) = 0 ∧ ppc_numthreads_get args cu H = none := by
  have h : MIN args.gws (H / 3) = 0 := by
    rw [MIN_eq_min]; omega
  exact ⟨h, ppc_numthreads_get_none args cu H h⟩

/-- C2: the code at the reported input. With the default `args.gws = 0` and a
grid of height 9 the maximum is `9 / 3 = 3`, but the effective count is
`MIN(0, 3) = 0`, not the maximum, and `num_rows / gws` is a division by zero:
the function yields no work sizes at all (the claim expects `gws = 3` and
`rows_per_workitem = 3`). -/
theorem ppc_numthreads_get_default_height9 :
    (9 : Nat) / 3 = 3 ∧ MIN 0 (9 / 3) = 0 ∧ ppc_numthreads_get ⟨0, 0⟩ 1 9 = none := by
  decide

/-- C3: the code at the reported input. With a grid of height 2 and one
requested worker the maximum is `0`, the effective count is `MIN(1, 0) = 0`,
and `num_rows / gws` is a division by zero: no configuration error is
produced, the function simply has no defined result. -/
theorem ppc_numthreads_get_height2 :
    (2 : Nat) / 3 = 0 ∧ MIN 1 (2 / 3) = 0 ∧ ppc_numthreads_get ⟨1, 0⟩ 1 2 = none := by
  decide

theorem row_distance_row_of_turn (W w1 w2 t : Nat) :
    row_distance (row_of_turn W w1 t) (row_of_turn W w2 t) = row_distance w1 w2 := by
  unfold row_distance row_of_turn
  split <;> split <;> omega

theorem stats_zero_loop_apply (s : Nat → PPStatistics) (k i : Nat) :
    stats_zero_loop s k i = if 1 ≤ i ∧ i ≤ k then ⟨0, 0, 0⟩ else s i := by
  induction k with
  | zero =>
    have : ¬ (1 ≤ i ∧ i ≤ 0) := by omega
    simp only [stats_zero_loop, this, if_false]
  | succ k ih =>
    simp only [stats_zero_loop]
    by_cases hi : i = k + 1
    · subst hi
      have : 1 ≤ k + 1 ∧ k + 1 ≤ k + 1 := by omega
      simp only [Function.update_same, this, and_self, if_true]
    · rw [Function.update_noteq hi, ih]
      by_cases h1 : 1 ≤ i ∧ i ≤ k
      · have h2 : 1 ≤ i ∧ i ≤ k + 1 := by omega
        simp only [h1, h2, and_self, if_true]
      · have h2 : ¬ (1 ≤ i ∧ i ≤ k + 1) := by omega
        simp only [h1, h2, if_false]

theorem ppc_stats_init_stats_zero (params : PPParameters) (h : HostMem) :
    (ppc_stats_init params h).stats 0 = ⟨params.init_sheep, params.init_wolves, 0⟩ := by
  simp only [ppc_stats_init, stats_zero_loop_apply]
  have : ¬ (1 ≤ 0 ∧ 0 ≤ params.iters) := by omega
  simp only [this, if_false, Function.update_same]

theorem ppc_stats_init_stats_later (params : PPParameters) (h : HostMem) (i : Nat)
    (h1 : 1 ≤ i) (h2 : i ≤ params.iters) :
    (ppc_stats_init params h).stats i = ⟨0, 0, 0⟩ := by
  simp only [ppc_stats_init, stats_zero_loop_apply]
  simp only [h1, h2, and_self, if_true]

theorem ppc_stats_init_matrix (params : PPParameters) (h : HostMem) :
    (ppc_stats_init params h).matrix = h.matrix := rfl

theorem ppc_stats_init_rng (params : PPParameters) (h : HostMem) :
    (ppc_stats_init params h).rng = h.rng := rfl

theorem grid_cell_init_spec (params : PPParameters) (i j : Nat) (h : HostMem) :
    ∃ g : Nat,
      (grid_cell_init params i j h).matrix =
        Function.update h.matrix (gridIndex params i j) ⟨g, NULL_AGENT_POINTER⟩ ∧
      (grid_cell_init params i j h).stats =
        (if g = 0 then
          Function.update h.stats 0 { h.stats 0 with grass := ((h.stats 0).grass + 1) % 2 ^ 32 }
        else h.stats) ∧
      (grid_cell_init params i j h).agents = h.agents := by
  refine ⟨(if (g_rand_int_range h.rng 0 2).1 = 0 then ((0 : Nat), (g_rand_int_range h.rng 0 2).2)
    else (toUInt32 (g_rand_int_range (g_rand_int_range h.rng 0 2).2 1
      (toInt32 (params.grass_restart + 1))).1,
      (g_rand_int_range (g_rand_int_range h.rng 0 2).2 1
        (toInt32 (params.grass_restart + 1))).2)).1, ?_, ?_, ?_⟩
  · simp only [grid_cell_init, Function.update_same, Function.update_idem]
  · simp only [grid_cell_init]
  · simp only [grid_cell_init]

/-- Frame and counting properties of one grid cell initialisation. -/
theorem grid_cell_init_effect (params : PPParameters) (i j : Nat) (h : HostMem)
    (hlt : (h.stats 0).grass < 2 ^ 32) :
    (∀ c, c ≠ gridIndex params i j → (grid_cell_init params i j h).matrix c = h.matrix c) ∧
    ((grid_cell_init params i j h).matrix (gridIndex params i j)).agent_pointer
      = NULL_AGENT_POINTER ∧
    ((grid_cell_init params i j h).stats 0).grass =
      ((h.stats 0).grass + edible (grid_cell_init params i j h).matrix (gridIndex params i j))
        % 2 ^ 32 ∧
    ((grid_cell_init params i j h).stats 0).sheep = (h.stats 0).sheep ∧
    ((grid_cell_init params i j h).stats 0).wolves = (h.stats 0).wolves ∧
    (∀ n, n ≠ 0 → (grid_cell_init params i j h).stats n = h.stats n) ∧
    (grid_cell_init params i j h).agents = h.agents := by
  obtain ⟨g, hm, hs, ha⟩ := grid_cell_init_spec params i j h
  refine ⟨?_, ?_, ?_, ?_, ?_, ?_, ha⟩
  · intro c hc
    rw [hm, Function.update_noteq hc]
  · rw [hm, Function.update_same]
  · rw [hm, hs]
    unfold edible
    rw [Function.update_same]
    by_cases hg : g = 0
    · simp only [hg, if_true, Function.update_same]
    · simp only [hg, if_false, Nat.add_zero]
      exact (Nat.mod_eq_of_lt hlt).symm
  · rw [hs]; split
    · rw [Function.update_same]
    · rfl
  · rw [hs]; split
    · rw [Function.update_same]
    · rfl
  · intro n hn
    rw [hs]; split
    · rw [Function.update_noteq hn]
    · rfl

theorem gridIndex_lt (params : PPParameters) (hxy : params.grid_x * params.grid_y < 2 ^ 32)
    (i j : Nat) (hi : i < params.grid_x) (hj : j < params.grid_y) :
    gridIndex params i j = i + j * params.grid_x ∧
      i + j * params.grid_x < params.grid_x * params.grid_y := by
  have h1 : i + j * params.grid_x < params.grid_x * params.grid_y := by
    have : (j + 1) * params.grid_x ≤ params.grid_y * params.grid_x :=
      Nat.mul_le_mul_right _ hj
    nlinarith
  refine ⟨?_, h1⟩
  unfold gridIndex
  exact Nat.mod_eq_of_lt (lt_trans h1 hxy)

/-- Injectivity of the grid index on the positions of the grid. -/
theorem gridIndex_inj (params : PPParameters) (hxy : params.grid_x * params.grid_y < 2 ^ 32)
    (i j i' j' : Nat) (hi : i < params.grid_x) (hj : j < params.grid_y)
    (hi' : i' < params.grid_x) (hj' : j' < params.grid_y)
    (he : gridIndex params i j = gridIndex params i' j') : i = i' ∧ j = j' := by
  rw [(gridIndex_lt params hxy i j hi hj).1, (gridIndex_lt params hxy i' j' hi' hj').1] at he
  have hjj : j = j' := by
    rcases lt_trichotomy j j' with h | h | h
    · exfalso
      have : (j + 1) * params.grid_x ≤ j' * params.grid_x := Nat.mul_le_mul_right _ h
      nlinarith
    · exact h
    · exfalso
      have : (j' + 1) * params.grid_x ≤ j * params.grid_x := Nat.mul_le_mul_right _ h
      nlinarith
  subst hjj
  exact ⟨by omega, rfl⟩

theorem edible_congr (m m' : Nat → PPCCell) (c : Nat) (h : m c = m' c) :
    edible m c = edible m' c := by
  unfold edible
  rw [h]

theorem edible_le_one (m : Nat → PPCCell) (c : Nat) : edible m c ≤ 1 := by
  unfold edible
  split <;> omega

theorem grid_inner_loop_effect (params : PPParameters)
    (hxy : params.grid_x * params.grid_y < 2 ^ 32) (i : Nat) (hi : i < params.grid_x)
    (h : HostMem) (hlt : (h.stats 0).grass < 2 ^ 32) (k : Nat) (hk : k ≤ params.grid_y) :
    (∀ c, (∀ j, j < k → c ≠ gridIndex params i j) →
      (grid_inner_loop params i h k).matrix c = h.matrix c) ∧
    (∀ j, j < k →
      ((grid_inner_loop params i h k).matrix (gridIndex params i j)).agent_pointer
        = NULL_AGENT_POINTER) ∧
    ((grid_inner_loop params i h k).stats 0).grass =
      ((h.stats 0).grass + Finset.sum (Finset.range k)
        (fun j => edible (grid_inner_loop params i h k).matrix (gridIndex params i j)))
        % 2 ^ 32 ∧
    ((grid_inner_loop params i h k).stats 0).sheep = (h.stats 0).sheep ∧
    ((grid_inner_loop params i h k).stats 0).wolves = (h.stats 0).wolves ∧
    (∀ n, n ≠ 0 → (grid_inner_loop params i h k).stats n = h.stats n) ∧
    (grid_inner_loop params i h k).agents = h.agents := by
  induction k with
  | zero =>
    refine ⟨fun _ _ => rfl, fun j hj => absurd hj (Nat.not_lt_zero j), ?_, rfl, rfl,
      fun _ _ => rfl, rfl⟩
    simp only [grid_inner_loop, Finset.range_zero, Finset.sum_empty, Nat.add_zero]
    exact (Nat.mod_eq_of_lt hlt).symm
  | succ k ih =>
    obtain ⟨ia, ib, ic, id, ie, ig, ih'⟩ := ih (by omega)
    have hlt' : ((grid_inner_loop params i h k).stats 0).grass < 2 ^ 32 := by
      rw [ic]; exact Nat.mod_lt _ (by norm_num)
    obtain ⟨ca, cb, cc, cd, ce, cg, ch⟩ :=
      grid_cell_init_effect params i k (grid_inner_loop params i h k) hlt'
    have hne : ∀ j, j < k → gridIndex params i j ≠ gridIndex params i k := by
      intro j hj he
      have := (gridIndex_inj params hxy i j i k hi (by omega) hi (by omega) he).2
      omega
    simp only [grid_inner_loop]
    refine ⟨?_, ?_, ?_, by rw [cd, id], by rw [ce, ie], ?_, by rw [ch, ih']⟩
    · intro c hc
      rw [ca c (hc k (by omega))]
      exact ia c (fun j hj => hc j (by omega))
    · intro j hj
      by_cases hjk : j = k
      · subst hjk; exact cb
      · have hj' : j < k := by omega
        rw [ca _ (hne j hj')]
        exact ib j hj'
    · rw [cc, ic, Finset.sum_range_succ]
      have hsum : Finset.sum (Finset.range k) (fun j =>
          edible (grid_cell_init params i k (grid_inner_loop params i h k)).matrix
            (gridIndex params i j)) =
          Finset.sum (Finset.range k) (fun j =>
            edible (grid_inner_loop params i h k).matrix (gridIndex params i j)) := by
        apply Finset.sum_congr rfl
        intro j hj
        apply edible_congr
        exact ca _ (hne j (Finset.mem_range.mp hj))
      rw [hsum, Nat.mod_add_mod, Nat.add_assoc]
    · intro n hn
      rw [cg n hn, ig n hn]

theorem grid_outer_loop_effect (params : PPParameters)
    (hxy : params.grid_x * params.grid_y < 2 ^ 32)
    (h : HostMem) (hlt : (h.stats 0).grass < 2 ^ 32) (k : Nat) (hk : k ≤ params.grid_x) :
    (∀ c, (∀ i j, i < k → j < params.grid_y → c ≠ gridIndex params i j) →
      (grid_outer_loop params h k).matrix c = h.matrix c) ∧
    (∀ i j, i < k → j < params.grid_y →
      ((grid_outer_loop params h k).matrix (gridIndex params i j)).agent_pointer
        = NULL_AGENT_POINTER) ∧
    ((grid_outer_loop params h k).stats 0).grass =
      ((h.stats 0).grass + Finset.sum (Finset.range k) (fun i =>
        Finset.sum (Finset.range params.grid_y)
          (fun j => edible (grid_outer_loop params h k).matrix (gridIndex params i j))))
        % 2 ^ 32 ∧
    ((grid_outer_loop params h k).stats 0).sheep = (h.stats 0).sheep ∧
    ((grid_outer_loop params h k).stats 0).wolves = (h.stats 0).wolves ∧
    (∀ n, n ≠ 0 → (grid_outer_loop params h k).stats n = h.stats n) ∧
    (grid_outer_loop params h k).agents = h.agents := by
  induction k with
  | zero =>
    refine ⟨fun _ _ => rfl, fun i j hi => absurd hi (Nat.not_lt_zero i), ?_, rfl, rfl,
      fun _ _ => rfl, rfl⟩
    simp only [grid_outer_loop, Finset.range_zero, Finset.sum_empty, Nat.add_zero]
    exact (Nat.mod_eq_of_lt hlt).symm
  | succ k ih =>
    obtain ⟨ia, ib, ic, id, ie, ig, ih'⟩ := ih (by omega)
    have hlt' : ((grid_outer_loop params h k).stats 0).grass < 2 ^ 32 := by
      rw [ic]; exact Nat.mod_lt _ (by norm_num)
    obtain ⟨ca, cb, cc, cd, ce, cg, ch⟩ :=
      grid_inner_loop_effect params hxy k (by omega) (grid_outer_loop params h k) hlt'
        params.grid_y (le_refl _)
    have hne : ∀ i j j', i < k → j < params.grid_y → j' < params.grid_y →
        gridIndex params i j ≠ gridIndex params k j' := by
      intro i j j' hi hj hj' he
      have := (gridIndex_inj params hxy i j k j' (by omega) hj (by omega) hj' he).1
      omega
    simp only [grid_outer_loop]
    refine ⟨?_, ?_, ?_, by rw [cd, id], by rw [ce, ie], ?_, by rw [ch, ih']⟩
    · intro c hc
      rw [ca c (fun j hj => hc k j (by omega) hj)]
      exact ia c (fun i j hi hj => hc i j (by omega) hj)
    · intro i j hi hj
      by_cases hik : i = k
      · subst hik; exact cb j hj
      · have hi' : i < k := by omega
        rw [ca _ (fun j' hj' => hne i j j' hi' hj hj')]
        exact ib i j hi' hj
    · rw [cc, ic, Finset.sum_range_succ]
      have hsum : Finset.sum (Finset.range k) (fun i =>
          Finset.sum (Finset.range params.grid_y) (fun j =>
            edible (grid_inner_loop params k (grid_outer_loop params h k) params.grid_y).matrix
              (gridIndex params i j))) =
          Finset.sum (Finset.range k) (fun i =>
            Finset.sum (Finset.range params.grid_y) (fun j =>
              edible (grid_outer_loop params h k).matrix (gridIndex params i j))) := by
        apply Finset.sum_congr rfl
        intro i hi
        apply Finset.sum_congr rfl
        intro j hj
        apply edible_congr
        exact ca _ (fun j' hj' =>
          hne i j j' (Finset.mem_range.mp hi) (Finset.mem_range.mp hj) hj')
      rw [hsum, Nat.mod_add_mod, Nat.add_assoc]
    · intro n hn
      rw [cg n hn, ig n hn]

theorem edible_cells_eq_sum (m : Nat → PPCCell) (n : Nat) :
    edible_cells m n = Finset.sum (Finset.range n) (fun c => edible m c) := by
  induction n with
  | zero => rfl
  | succ n ih =>
    rw [Finset.sum_range_succ, ← ih]
    unfold edible_cells edible
    rw [List.range_succ, List.filter_append, List.length_append]
    by_cases hz : (m n).grass = 0
    · simp [hz]
    · simp [hz]

theorem sum_range_mul_rows (f : Nat → Nat) (gx gy : Nat) :
    Finset.sum (Finset.range (gx * gy)) f =
      Finset.sum (Finset.range gy) (fun j =>
        Finset.sum (Finset.range gx) (fun i => f (i + j * gx))) := by
  induction gy with
  | zero => simp
  | succ gy ih =>
    rw [Nat.mul_succ, Finset.sum_range_add, Finset.sum_range_succ, ih]
    congr 1
    apply Finset.sum_congr rfl
    intro i _
    congr 1
    rw [Nat.mul_comm]
    omega

theorem edible_cells_eq_grid_sum (params : PPParameters)
    (hxy : params.grid_x * params.grid_y < 2 ^ 32) (m : Nat → PPCCell) :
    edible_cells m (params.grid_x * params.grid_y) =
      Finset.sum (Finset.range params.grid_x) (fun i =>
        Finset.sum (Finset.range params.grid_y)
          (fun j => edible m (gridIndex params i j))) := by
  rw [edible_cells_eq_sum, sum_range_mul_rows, Finset.sum_comm]
  apply Finset.sum_congr rfl
  intro i hi
  apply Finset.sum_congr rfl
  intro j hj
  rw [(gridIndex_lt params hxy i j (Finset.mem_range.mp hi) (Finset.mem_range.mp hj)).1]

theorem edible_cells_le (m : Nat → PPCCell) (n : Nat) : edible_cells m n ≤ n := by
  unfold edible_cells
  calc ((List.range n).filter fun c => (m c).grass = 0).length
      ≤ (List.range n).length := List.length_filter_le _ _
    _ = n := List.length_range n

/-- Effect of the statistics and grid initialisation taken together. -/
theorem ppc_matrix_init_effect (params : PPParameters)
    (hxy : params.grid_x * params.grid_y < 2 ^ 32) (h : HostMem) :
    (ppc_matrix_init params (ppc_stats_init params h)).stats 0 =
      ⟨params.init_sheep, params.init_wolves,
        edible_cells (ppc_matrix_init params (ppc_stats_init params h)).matrix
          (params.grid_x * params.grid_y)⟩ ∧
    (∀ i, 1 ≤ i → i ≤ params.iters →
      (ppc_matrix_init params (ppc_stats_init params h)).stats i = ⟨0, 0, 0⟩) ∧
    (∀ i j, i < params.grid_x → j < params.grid_y →
      ((ppc_matrix_init params (ppc_stats_init params h)).matrix
        (gridIndex params i j)).agent_pointer = NULL_AGENT_POINTER) ∧
    (ppc_matrix_init params (ppc_stats_init params h)).agents = h.agents := by
  have h0 := ppc_stats_init_stats_zero params h
  have hlt : ((ppc_stats_init params h).stats 0).grass < 2 ^ 32 := by
    rw [h0]; norm_num
  obtain ⟨-, hb, hc, hd, he, hg, ha⟩ :=
    grid_outer_loop_effect params hxy (ppc_stats_init params h) hlt params.grid_x (le_refl _)
  unfold ppc_matrix_init
  refine ⟨?_, ?_, hb, ?_⟩
  · rw [← edible_cells_eq_grid_sum params hxy, h0] at hc
    rw [h0] at hd he
    simp only [Nat.zero_add] at hc
    have hle := edible_cells_le (grid_outer_loop params (ppc_stats_init params h)
      params.grid_x).matrix (params.grid_x * params.grid_y)
    rw [Nat.mod_eq_of_lt (lt_of_le_of_lt hle hxy)] at hc
    cases hst : (grid_outer_loop params (ppc_stats_init params h) params.grid_x).stats 0 with
    | mk s w g =>
      rw [hst] at hc hd he
      simp only at hc hd he
      rw [hc, hd, he]
  · intro i h1 h2
    rw [hg i (by omega)]
    exact ppc_stats_init_stats_later params h i h1 h2
  · rw [ha]; rfl

/-- C5: for every configuration with `grid_x * grid_y < 2^32` and every
generator state (every sequence of draws), after the statistics and grid
initialisation of `ppc_buffers_init` record 0 is
`(init_sheep, init_wolves, g)` with `g` the number of grid cells whose grass
timer is 0, and every record `1 .. iters` is `(0, 0, 0)`. -/
theorem ppc_buffers_init_stats_seed (params : PPParameters) (h : HostMem)
    (hxy : params.grid_x * params.grid_y < 2 ^ 32) :
    (ppc_matrix_init params (ppc_stats_init params h)).stats 0 =
      ⟨params.init_sheep, params.init_wolves,
        edible_cells (ppc_matrix_init params (ppc_stats_init params h)).matrix
          (params.grid_x * params.grid_y)⟩ ∧
    ∀ i, 1 ≤ i → i ≤ params.iters →
      (ppc_matrix_init params (ppc_stats_init params h)).stats i = ⟨0, 0, 0⟩ :=
  ⟨(ppc_matrix_init_effect params hxy h).1, (ppc_matrix_init_effect params hxy h).2.1⟩

/-- Witness for C5: the example configuration (a 3 by 2 grid). -/
theorem ppc_buffers_init_stats_seed_witness :
    example_params.grid_x * example_params.grid_y < 2 ^ 32 ∧
    ((ppc_matrix_init example_params (ppc_stats_init example_params example_mem)).stats 0 =
      ⟨example_params.init_sheep, example_params.init_wolves,
        edible_cells
          (ppc_matrix_init example_params (ppc_stats_init example_params example_mem)).matrix
          (example_params.grid_x * example_params.grid_y)⟩ ∧
    ∀ i, 1 ≤ i → i ≤ example_params.iters →
      (ppc_matrix_init example_params (ppc_stats_init example_params example_mem)).stats i
        = ⟨0, 0, 0⟩) :=
  ⟨by decide, ppc_buffers_init_stats_seed example_params example_mem (by decide)⟩

/-! ## Agent arena initialisation -/

theorem coord_lt (rng : GRand) (n : Nat) (hn : 0 < n) :
    toUInt32 (g_rand_int_range rng 0 (toInt32 n)).1 < n := by
  unfold g_rand_int_range
  by_cases hpos : toInt32 n > 0
  · rw [if_pos hpos]
    have hle : toInt32 n ≤ (n : Int) := by
      unfold toInt32
      have : n % 2 ^ 32 ≤ n := Nat.mod_le _ _
      split <;> omega
    have hlt32 : toInt32 n < 2 ^ 32 := by
      unfold toInt32
      have : n % 2 ^ 32 < 2 ^ 32 := Nat.mod_lt _ (by norm_num)
      split <;> omega
    have h1 : (0 : Int) ≤ (rng.draws rng.pos : Int) % (toInt32 n - 0) :=
      Int.emod_nonneg _ (by omega)
    have h2 : (rng.draws rng.pos : Int) % (toInt32 n - 0) < toInt32 n - 0 :=
      Int.emod_lt_of_pos _ (by omega)
    unfold toUInt32
    simp only
    have h3 : (0 + (rng.draws rng.pos : Int) % (toInt32 n - 0)) % 2 ^ 32
        = (rng.draws rng.pos : Int) % (toInt32 n - 0) := by
      rw [Int.zero_add]
      exact Int.emod_eq_of_lt h1 (by omega)
    rw [h3]
    omega
  · rw [if_neg hpos]
    unfold toUInt32
    simpa using hn

theorem place_cell_inGrid (params : PPParameters) (rng : GRand)
    (hx : 0 < params.grid_x) (hy : 0 < params.grid_y) :
    InGrid params (place_cell params rng) :=
  ⟨_, _, coord_lt rng params.grid_x hx, coord_lt _ params.grid_y hy, rfl⟩

theorem chain_nil_iff (agents : Nat → PPCAgent) (p : Nat) :
    Chain agents p [] ↔ p = NULL_AGENT_POINTER := Iff.rfl

theorem chain_cons_iff (agents : Nat → PPCAgent) (p a : Nat) (l : List Nat) :
    Chain agents p (a :: l) ↔
      p = a ∧ a ≠ NULL_AGENT_POINTER ∧ Chain agents (agents a).next l := Iff.rfl

/-- A chain only depends on the slots it runs through. -/
theorem chain_congr (agents agents' : Nat → PPCAgent) (l : List Nat) (p : Nat)
    (hag : ∀ a, a ∈ l → agents' a = agents a) (hc : Chain agents p l) :
    Chain agents' p l := by
  induction l generalizing p with
  | nil => exact hc
  | cons a l ih =>
    obtain ⟨h1, h2, h3⟩ := hc
    refine ⟨h1, h2, ?_⟩
    rw [hag a (List.mem_cons_self a l)]
    exact ih _ (fun b hb => hag b (List.mem_cons_of_mem a hb)) h3

theorem chain_head (agents : Nat → PPCAgent) (p : Nat) (l : List Nat)
    (hc : Chain agents p l) : (p = NULL_AGENT_POINTER ↔ l = []) := by
  cases l with
  | nil => exact ⟨fun _ => rfl, fun _ => hc⟩
  | cons a l =>
    obtain ⟨h1, h2, -⟩ := hc
    constructor
    · intro hp; rw [h1] at hp; exact absurd hp h2
    · intro h; exact absurd h (List.cons_ne_nil a l)

/-- The tail search stops at the last slot of a non-empty chain. -/
theorem tail_walk_chain (agents : Nat → PPCAgent) (l : List Nat) (a p fuel : Nat)
    (hc : Chain agents p (l ++ [a])) (hf : l.length + 1 ≤ fuel) :
    tail_walk agents fuel p = some a := by
  induction l generalizing p fuel with
  | nil =>
    obtain ⟨h1, -, h3⟩ := hc
    obtain ⟨f, rfl⟩ : ∃ f, fuel = f + 1 := ⟨fuel - 1, by simp at hf; omega⟩
    have h3' : (agents a).next = NULL_AGENT_POINTER := h3
    simp only [tail_walk, h1, h3', ne_eq, not_true_eq_false, if_false]
  | cons b l ih =>
    obtain ⟨h1, -, h3⟩ := hc
    obtain ⟨f, rfl⟩ : ∃ f, fuel = f + 1 := ⟨fuel - 1, by simp at hf; omega⟩
    have hne : (agents b).next ≠ NULL_AGENT_POINTER := by
      intro hnull
      have := (chain_head agents _ _ h3).mp hnull
      simp at this
    subst h1
    simp only [tail_walk, hne, ne_eq, not_false_eq_true, if_true]
    exact ih _ f h3 (by simp at hf; omega)

/-- Appending slot `i` behind the last slot `a` of a chain. -/
theorem chain_append (agents : Nat → PPCAgent) (l : List Nat) (a i p : Nat)
    (hc : Chain agents p (l ++ [a])) (hnd : (l ++ [a]).Nodup)
    (hi : i ∉ l ++ [a]) (hin : i ≠ NULL_AGENT_POINTER) (e t : Nat) :
    Chain (Function.update (Function.update agents a { agents a with next := i }) i
        ⟨e, 0, t, NULL_AGENT_POINTER⟩) p (l ++ [a] ++ [i]) := by
  induction l generalizing p with
  | nil =>
    obtain ⟨h1, h2, -⟩ := hc
    have hia : i ≠ a := by
      intro h; apply hi; simp [h]
    refine ⟨h1, h2, ?_⟩
    rw [Function.update_noteq (Ne.symm hia), Function.update_same]
    refine ⟨rfl, hin, ?_⟩
    rw [Function.update_same]
    rfl
  | cons b l ih =>
    obtain ⟨h1, h2, h3⟩ := hc
    have hnd' : (l ++ [a]).Nodup := (List.nodup_cons.mp hnd).2
    have hb : b ∉ l ++ [a] := (List.nodup_cons.mp hnd).1
    have hba : b ≠ a := by
      intro h; apply hb; simp [h]
    have hbi : b ≠ i := by
      intro h; apply hi; simp [h]
    have hi' : i ∉ l ++ [a] := fun h => hi (List.mem_cons_of_mem b h)
    refine ⟨h1, h2, ?_⟩
    rw [Function.update_noteq hbi, Function.update_noteq hba]
    exact ih _ h3 hnd' hi'

theorem agent_slot_init_empty (fuel : Nat) (params : PPParameters) (i : Nat) (h : HostMem)
    (hi : ¬ i < population params) :
    agent_slot_init fuel params i h =
      some { h with agents := Function.update h.agents i empty_agent } := by
  unfold population at hi
  unfold agent_slot_init
  rw [if_neg hi]
  rfl

theorem agent_slot_init_first (fuel : Nat) (params : PPParameters) (i : Nat) (h : HostMem)
    (hi : i < population params)
    (hp : (h.matrix (place_cell params h.rng)).agent_pointer = NULL_AGENT_POINTER) :
    agent_slot_init fuel params i h =
      some { rng := rng_after_slot params i h.rng
             stats := h.stats
             matrix := Function.update h.matrix (place_cell params h.rng)
               { h.matrix (place_cell params h.rng) with agent_pointer := i }
             agents := Function.update h.agents i
               ⟨slot_energy params i h.rng, 0, slot_type params i, NULL_AGENT_POINTER⟩ } := by
  unfold population at hi
  unfold place_cell at hp
  simp only at hp
  unfold agent_slot_init
  rw [if_pos hi]
  simp only [hp, if_true, Option.map_some', Function.update_same, Function.update_idem]
  unfold rng_after_slot slot_energy slot_type energy_end place_cell
  by_cases hs : i < params.init_sheep
  · simp only [hs, if_true]
  · simp only [hs, if_false]

theorem update_shadow {β : Type} (f : Nat → β) (i a : Nat) (hai : a ≠ i) (v w z : β) :
    Function.update (Function.update (Function.update f i v) a w) i z =
      Function.update (Function.update f a w) i z := by
  rw [Function.update_comm (Ne.symm hai) v w f, Function.update_idem]

theorem agent_slot_init_append (fuel : Nat) (params : PPParameters) (i : Nat) (h : HostMem)
    (hi : i < population params)
    (hp : (h.matrix (place_cell params h.rng)).agent_pointer ≠ NULL_AGENT_POINTER)
    (a : Nat) (hai : a ≠ i)
    (hw : tail_walk
      (Function.update h.agents i { h.agents i with action := 0, next := NULL_AGENT_POINTER })
      fuel (h.matrix (place_cell params h.rng)).agent_pointer = some a) :
    agent_slot_init fuel params i h =
      some { rng := rng_after_slot params i h.rng
             stats := h.stats
             matrix := h.matrix
             agents := Function.update
               (Function.update h.agents a { h.agents a with next := i }) i
               ⟨slot_energy params i h.rng, 0, slot_type params i, NULL_AGENT_POINTER⟩ } := by
  unfold population at hi
  unfold place_cell at hp hw
  simp only at hp hw
  unfold agent_slot_init
  rw [if_pos hi]
  simp only [hp, if_false, Function.update_same, Function.update_idem, hw, Option.map_some']
  unfold rng_after_slot slot_energy slot_type energy_end
  by_cases hs : i < params.init_sheep
  · simp only [hs, if_true, Function.update_noteq hai, Function.update_noteq (Ne.symm hai),
      Function.update_same, update_shadow _ i a hai]
  · simp only [hs, if_false, Function.update_noteq hai, Function.update_noteq (Ne.symm hai),
      Function.update_same, update_shadow _ i a hai]

theorem mem_cell_agents (params : PPParameters) (rng0 : GRand) (m c a : Nat) :
    a ∈ cell_agents params rng0 m c ↔ a < m ∧ drawn_cell params rng0 a = c := by
  unfold cell_agents
  simp [List.mem_filter]

theorem cell_agents_succ (params : PPParameters) (rng0 : GRand) (m c : Nat) :
    cell_agents params rng0 (m + 1) c =
      cell_agents params rng0 m c ++ (if drawn_cell params rng0 m = c then [m] else []) := by
  unfold cell_agents
  rw [List.range_succ, List.filter_append]
  by_cases h : drawn_cell params rng0 m = c
  · simp [h]
  · simp [h]

theorem cell_agents_nodup (params : PPParameters) (rng0 : GRand) (m c : Nat) :
    (cell_agents params rng0 m c).Nodup := by
  unfold cell_agents
  exact (List.nodup_range m).filter _

theorem cell_agents_length_le (params : PPParameters) (rng0 : GRand) (m c : Nat) :
    (cell_agents params rng0 m c).length ≤ m := by
  unfold cell_agents
  calc ((List.range m).filter fun a => drawn_cell params rng0 a = c).length
      ≤ (List.range m).length := List.length_filter_le _ _
    _ = m := List.length_range m

theorem population_lt (params : PPParameters) : population params < 2 ^ 32 :=
  Nat.mod_lt _ (by norm_num)

theorem ne_null_of_lt_population (params : PPParameters) (m : Nat)
    (hm : m < population params) : m ≠ NULL_AGENT_POINTER := by
  have := population_lt params
  unfold NULL_AGENT_POINTER UINT_MAX
  omega

theorem agentInv_init (params : PPParameters) (h0 : HostMem)
    (hnull : ∀ c, InGrid params c → (h0.matrix c).agent_pointer = NULL_AGENT_POINTER) :
    AgentInv params h0 0 h0 where
  rng_eq := rfl
  stats_eq := rfl
  grass_eq := fun _ => rfl
  chain := fun c hc => hnull c hc
  species := fun a ha => absurd ha (Nat.not_lt_zero a)
  next_lt := fun a ha => absurd ha (Nat.not_lt_zero a)
  head_lt := fun c hc => Or.inl (hnull c hc)

/-- Populating slot `m` into an empty cell keeps the invariant. -/
theorem agentInv_step_first (fuel : Nat) (params : PPParameters) (h0 h : HostMem) (m : Nat)
    (hm : m < population params) (inv : AgentInv params h0 m h)
    (hp : (h.matrix (place_cell params h.rng)).agent_pointer = NULL_AGENT_POINTER) :
    ∃ h', agent_slot_init fuel params m h = some h' ∧ AgentInv params h0 (m + 1) h' ∧
      ∀ a, m < a → h'.agents a = h.agents a := by
  refine ⟨_, agent_slot_init_first fuel params m h hm hp, ?_, ?_⟩
  swap
  · intro a ha
    exact Function.update_noteq (by omega) _ _
  have hcell : place_cell params h.rng = drawn_cell params h0.rng m := by
    unfold drawn_cell; rw [inv.rng_eq]
  have hmn := ne_null_of_lt_population params m hm
  have hnotmem : ∀ c, m ∉ cell_agents params h0.rng m c := by
    intro c hmem
    have := ((mem_cell_agents params h0.rng m c m).mp hmem).1
    omega
  refine ⟨?_, inv.stats_eq, ?_, ?_, ?_, ?_, ?_⟩
  · show rng_after_slot params m h.rng = agent_rng params h0.rng (m + 1)
    rw [inv.rng_eq]; rfl
  · intro c
    show ((Function.update h.matrix (place_cell params h.rng) _) c).grass = _
    by_cases hc : c = place_cell params h.rng
    · subst hc
      rw [Function.update_same]
      exact inv.grass_eq _
    · rw [Function.update_noteq hc]
      exact inv.grass_eq c
  · intro c hc
    rw [cell_agents_succ]
    show Chain (Function.update h.agents m _)
      ((Function.update h.matrix (place_cell params h.rng) _) c).agent_pointer _
    by_cases hcc : c = place_cell params h.rng
    · have hempty : cell_agents params h0.rng m c = [] := by
        have := inv.chain c hc
        rw [hcc] at this ⊢
        exact (chain_head _ _ _ this).mp hp
      rw [hempty]
      have hd : drawn_cell params h0.rng m = c := by rw [hcc, hcell]
      rw [if_pos hd, hcc, Function.update_same]
      refine ⟨rfl, hmn, ?_⟩
      rw [Function.update_same]
      rfl
    · have hd : ¬ drawn_cell params h0.rng m = c := by
        rw [← hcell]; exact fun h => hcc h.symm
      rw [if_neg hd, List.append_nil, Function.update_noteq hcc]
      apply chain_congr h.agents _ _ _ _ (inv.chain c hc)
      intro a ha
      have : a ≠ m := fun h => hnotmem c (h ▸ ha)
      exact Function.update_noteq this _ _
  · intro a ha
    show ((Function.update h.agents m _) a).type = _ ∧ ((Function.update h.agents m _) a).action = _
    by_cases ham : a = m
    · subst ham
      rw [Function.update_same]
      exact ⟨rfl, rfl⟩
    · rw [Function.update_noteq ham]
      exact inv.species a (by omega)
  · intro a ha
    show ((Function.update h.agents m _) a).next = _ ∨ ((Function.update h.agents m _) a).next < _
    by_cases ham : a = m
    · subst ham
      rw [Function.update_same]
      exact Or.inl rfl
    · rw [Function.update_noteq ham]
      rcases inv.next_lt a (by omega) with h1 | h1
      · exact Or.inl h1
      · exact Or.inr (by omega)
  · intro c hc
    show ((Function.update h.matrix (place_cell params h.rng) _) c).agent_pointer = _ ∨
      ((Function.update h.matrix (place_cell params h.rng) _) c).agent_pointer < _
    by_cases hcc : c = place_cell params h.rng
    · subst hcc
      rw [Function.update_same]
      exact Or.inr (Nat.lt_succ_self m)
    · rw [Function.update_noteq hcc]
      rcases inv.head_lt c hc with h1 | h1
      · exact Or.inl h1
      · exact Or.inr (by omega)

/-- Populating slot `m` into an occupied cell appends it to the cell's chain
and keeps the invariant. -/
theorem agentInv_step_append (fuel : Nat) (params : PPParameters) (h0 h : HostMem) (m : Nat)
    (hx : 0 < params.grid_x) (hy : 0 < params.grid_y)
    (hm : m < population params) (hfuel : m ≤ fuel) (inv : AgentInv params h0 m h)
    (hp : (h.matrix (place_cell params h.rng)).agent_pointer ≠ NULL_AGENT_POINTER) :
    ∃ h', agent_slot_init fuel params m h = some h' ∧ AgentInv params h0 (m + 1) h' ∧
      ∀ a, m < a → h'.agents a = h.agents a := by
  have hcell : place_cell params h.rng = drawn_cell params h0.rng m := by
    unfold drawn_cell; rw [inv.rng_eq]
  have hmn := ne_null_of_lt_population params m hm
  have hnotmem : ∀ c, m ∉ cell_agents params h0.rng m c := by
    intro c hmem
    have := ((mem_cell_agents params h0.rng m c m).mp hmem).1
    omega
  have hgrid : InGrid params (place_cell params h.rng) := place_cell_inGrid params h.rng hx hy
  have hchain := inv.chain _ hgrid
  have hne : cell_agents params h0.rng m (place_cell params h.rng) ≠ [] :=
    fun he => hp ((chain_head _ _ _ hchain).mpr he)
  obtain ⟨l, a, hla⟩ : ∃ l a, cell_agents params h0.rng m (place_cell params h.rng) = l ++ [a] :=
    ⟨_, _, (List.dropLast_append_getLast hne).symm⟩
  have hamem : a ∈ cell_agents params h0.rng m (place_cell params h.rng) := by
    rw [hla]; simp
  have ham : a < m := ((mem_cell_agents _ _ _ _ _).mp hamem).1
  have hacell : drawn_cell params h0.rng a = place_cell params h.rng :=
    ((mem_cell_agents _ _ _ _ _).mp hamem).2
  have hai : a ≠ m := by omega
  have hlen : l.length + 1 ≤ fuel := by
    have := cell_agents_length_le params h0.rng m (place_cell params h.rng)
    rw [hla] at this
    simp at this
    omega
  have hchain2 : Chain
      (Function.update h.agents m { h.agents m with action := 0, next := NULL_AGENT_POINTER })
      (h.matrix (place_cell params h.rng)).agent_pointer (l ++ [a]) := by
    rw [← hla]
    apply chain_congr h.agents _ _ _ _ hchain
    intro b hb
    have : b ≠ m := fun h => hnotmem _ (h ▸ hb)
    exact Function.update_noteq this _ _
  have hw := tail_walk_chain _ l a _ fuel hchain2 hlen
  refine ⟨_, agent_slot_init_append fuel params m h hm hp a hai hw, ?_, ?_⟩
  swap
  · intro b hb
    show (Function.update (Function.update h.agents a _) m _) b = _
    rw [Function.update_noteq (by omega), Function.update_noteq (by omega)]
  refine ⟨?_, inv.stats_eq, inv.grass_eq, ?_, ?_, ?_, ?_⟩
  · show rng_after_slot params m h.rng = agent_rng params h0.rng (m + 1)
    rw [inv.rng_eq]; rfl
  · intro c hc
    rw [cell_agents_succ]
    show Chain (Function.update (Function.update h.agents a _) m _) (h.matrix c).agent_pointer _
    by_cases hcc : c = place_cell params h.rng
    · have hd : drawn_cell params h0.rng m = c := by rw [hcc, hcell]
      rw [if_pos hd, hcc, hla]
      apply chain_append h.agents l a m _ _ _ _ hmn
      · rw [← hla]; exact hchain
      · rw [← hla]; exact cell_agents_nodup _ _ _ _
      · rw [← hla]; exact hnotmem _
    · have hd : ¬ drawn_cell params h0.rng m = c := by
        rw [← hcell]; exact fun h => hcc h.symm
      rw [if_neg hd, List.append_nil]
      apply chain_congr h.agents _ _ _ _ (inv.chain c hc)
      intro b hb
      have hbm : b ≠ m := fun h => hnotmem c (h ▸ hb)
      have hba : b ≠ a := by
        intro h
        apply hcc
        rw [← hacell, ← h]
        exact (((mem_cell_agents _ _ _ _ _).mp hb).2).symm
      rw [Function.update_noteq hbm, Function.update_noteq hba]
  · intro b hb
    show ((Function.update (Function.update h.agents a _) m _) b).type = _ ∧
      ((Function.update (Function.update h.agents a _) m _) b).action = _
    by_cases hbm : b = m
    · subst hbm
      rw [Function.update_same]
      exact ⟨rfl, rfl⟩
    · rw [Function.update_noteq hbm]
      by_cases hba : b = a
      · subst hba
        rw [Function.update_same]
        exact inv.species b ham
      · rw [Function.update_noteq hba]
        exact inv.species b (by omega)
  · intro b hb
    show ((Function.update (Function.update h.agents a _) m _) b).next = _ ∨
      ((Function.update (Function.update h.agents a _) m _) b).next < _
    by_cases hbm : b = m
    · subst hbm
      rw [Function.update_same]
      exact Or.inl rfl
    · rw [Function.update_noteq hbm]
      by_cases hba : b = a
      · subst hba
        rw [Function.update_same]
        exact Or.inr (Nat.lt_succ_self m)
      · rw [Function.update_noteq hba]
        rcases inv.next_lt b (by omega) with h1 | h1
        · exact Or.inl h1
        · exact Or.inr (by omega)
  · intro c hc
    rcases inv.head_lt c hc with h1 | h1
    · exact Or.inl h1
    · exact Or.inr (Nat.lt_succ_of_lt h1)

theorem agentInv_step (fuel : Nat) (params : PPParameters) (h0 h : HostMem) (m : Nat)
    (hx : 0 < params.grid_x) (hy : 0 < params.grid_y)
    (hm : m < population params) (hfuel : m ≤ fuel) (inv : AgentInv params h0 m h) :
    ∃ h', agent_slot_init fuel params m h = some h' ∧ AgentInv params h0 (m + 1) h' ∧
      ∀ a, m < a → h'.agents a = h.agents a := by
  by_cases hp : (h.matrix (place_cell params h.rng)).agent_pointer = NULL_AGENT_POINTER
  · exact agentInv_step_first fuel params h0 h m hm inv hp
  · exact agentInv_step_append fuel params h0 h m hx hy hm hfuel inv hp

/-- The populated part of the agent loop: after `k ≤ population` iterations the
first `k` slots hold agents linked into the occupant lists of their cells. -/
theorem agent_loop_populated (fuel : Nat) (params : PPParameters) (h0 : HostMem)
    (hx : 0 < params.grid_x) (hy : 0 < params.grid_y)
    (hnull : ∀ c, InGrid params c → (h0.matrix c).agent_pointer = NULL_AGENT_POINTER)
    (hfuel : population params ≤ fuel) (k : Nat) (hk : k ≤ population params) :
    ∃ h, agent_loop fuel params h0 k = some h ∧ AgentInv params h0 k h ∧
      ∀ a, k ≤ a → h.agents a = h0.agents a := by
  induction k with
  | zero => exact ⟨h0, rfl, agentInv_init params h0 hnull, fun _ _ => rfl⟩
  | succ k ih =>
    obtain ⟨h, hl, inv, hfr⟩ := ih (by omega)
    obtain ⟨h', hs, inv', hfr'⟩ :=
      agentInv_step fuel params h0 h k hx hy (by omega) (by omega) inv
    refine ⟨h', ?_, inv', ?_⟩
    · simp only [agent_loop, hl, Option.some_bind, hs]
    · intro a ha
      rw [hfr' a (by omega), hfr a (by omega)]

/-- The remaining iterations of the agent loop write the empty record into the
slots from `population` on and touch nothing else. -/
theorem agent_loop_rest (fuel : Nat) (params : PPParameters) (h0 hN : HostMem)
    (hN_eq : agent_loop fuel params h0 (population params) = some hN) (d : Nat) :
    ∃ h, agent_loop fuel params h0 (population params + d) = some h ∧
      h.rng = hN.rng ∧ h.stats = hN.stats ∧ h.matrix = hN.matrix ∧
      (∀ a, a < population params → h.agents a = hN.agents a) ∧
      (∀ a, population params ≤ a → a < population params + d → h.agents a = empty_agent) ∧
      (∀ a, population params + d ≤ a → h.agents a = hN.agents a) := by
  induction d with
  | zero =>
    exact ⟨hN, hN_eq, rfl, rfl, rfl, fun _ _ => rfl, fun a h1 h2 => absurd h2 (by omega),
      fun _ _ => rfl⟩
  | succ d ih =>
    obtain ⟨h, hl, h1, h2, h3, h4, h5, h6⟩ := ih
    have hstep := agent_slot_init_empty fuel params (population params + d) h (by omega)
    refine ⟨{ h with agents := Function.update h.agents (population params + d) empty_agent },
      ?_, h1, h2, h3, ?_, ?_, ?_⟩
    · rw [← Nat.add_assoc]
      simp only [agent_loop, hl, Option.some_bind, hstep]
    · intro a ha
      show (Function.update h.agents _ _) a = _
      rw [Function.update_noteq (by omega)]
      exact h4 a ha
    · intro a ha1 ha2
      show (Function.update h.agents _ _) a = _
      by_cases hh : a = population params + d
      · rw [hh, Function.update_same]
      · rw [Function.update_noteq hh]
        exact h5 a ha1 (by omega)
    · intro a ha
      show (Function.update h.agents _ _) a = _
      rw [Function.update_noteq (by omega)]
      exact h6 a (by omega)

/-- The invariant only reads the populated slots of the arena. -/
theorem agentInv_congr (params : PPParameters) (h0 h h' : HostMem) (m : Nat)
    (inv : AgentInv params h0 m h) (hr : h'.rng = h.rng) (hs : h'.stats = h.stats)
    (hm : h'.matrix = h.matrix) (ha : ∀ a, a < m → h'.agents a = h.agents a) :
    AgentInv params h0 m h' where
  rng_eq := by rw [hr]; exact inv.rng_eq
  stats_eq := by rw [hs]; exact inv.stats_eq
  grass_eq := by rw [hm]; exact inv.grass_eq
  chain := by
    intro c hc
    rw [hm]
    apply chain_congr h.agents _ _ _ _ (inv.chain c hc)
    intro a hmem
    exact ha a ((mem_cell_agents _ _ _ _ _).mp hmem).1
  species := by
    intro a hlt
    rw [ha a hlt]; exact inv.species a hlt
  next_lt := by
    intro a hlt
    rw [ha a hlt]; exact inv.next_lt a hlt
  head_lt := by rw [hm]; exact inv.head_lt

/-- The complete agent loop of `n ≥ population` iterations. -/
theorem agent_loop_complete (fuel : Nat) (params : PPParameters) (h0 : HostMem)
    (hx : 0 < params.grid_x) (hy : 0 < params.grid_y)
    (hnull : ∀ c, InGrid params c → (h0.matrix c).agent_pointer = NULL_AGENT_POINTER)
    (hfuel : population params ≤ fuel) (n : Nat) (hn : population params ≤ n) :
    ∃ h, agent_loop fuel params h0 n = some h ∧ AgentInv params h0 (population params) h ∧
      (∀ a, population params ≤ a → a < n → h.agents a = empty_agent) := by
  obtain ⟨hN, hl, inv, -⟩ :=
    agent_loop_populated fuel params h0 hx hy hnull hfuel (population params) (le_refl _)
  obtain ⟨h, hl', h1, h2, h3, h4, h5, -⟩ :=
    agent_loop_rest fuel params h0 hN hl (n - population params)
  have hn' : population params + (n - population params) = n := by omega
  rw [hn'] at hl' h5
  exact ⟨h, hl', agentInv_congr params h0 hN h _ inv h1 h2 h3 h4, h5⟩

theorem chain_occupants (agents : Nat → PPCAgent) (l : List Nat) (p fuel : Nat)
    (hc : Chain agents p l) (hf : l.length ≤ fuel) :
    occupants agents fuel p = some l := by
  induction l generalizing p fuel with
  | nil =>
    have hp : p = NULL_AGENT_POINTER := hc
    cases fuel <;> simp [occupants, hp]
  | cons a l ih =>
    obtain ⟨h1, h2, h3⟩ := hc
    obtain ⟨f, rfl⟩ : ∃ f, fuel = f + 1 := ⟨fuel - 1, by simp at hf; omega⟩
    subst h1
    simp only [occupants, h2, if_false, ih _ f h3 (by simpa using hf), Option.map_some']

theorem grid_cell_init_pointer (params : PPParameters) (i j : Nat) (h : HostMem) (c : Nat)
    (hc : (h.matrix c).agent_pointer = NULL_AGENT_POINTER ∨ c = gridIndex params i j) :
    ((grid_cell_init params i j h).matrix c).agent_pointer = NULL_AGENT_POINTER := by
  obtain ⟨g, hm, -, -⟩ := grid_cell_init_spec params i j h
  rw [hm]
  by_cases hcc : c = gridIndex params i j
  · rw [hcc, Function.update_same]
  · rw [Function.update_noteq hcc]
    rcases hc with h1 | h1
    · exact h1
    · exact absurd h1 hcc

theorem grid_inner_loop_pointer (params : PPParameters) (i : Nat) (h : HostMem) (k c : Nat)
    (hc : (h.matrix c).agent_pointer = NULL_AGENT_POINTER ∨
      ∃ j, j < k ∧ c = gridIndex params i j) :
    ((grid_inner_loop params i h k).matrix c).agent_pointer = NULL_AGENT_POINTER := by
  induction k with
  | zero =>
    rcases hc with h1 | ⟨j, hj, -⟩
    · exact h1
    · exact absurd hj (Nat.not_lt_zero j)
  | succ k ih =>
    simp only [grid_inner_loop]
    apply grid_cell_init_pointer
    rcases hc with h1 | ⟨j, hj, hcj⟩
    · exact Or.inl (ih (Or.inl h1))
    · by_cases hjk : j = k
      · subst hjk; exact Or.inr hcj
      · exact Or.inl (ih (Or.inr ⟨j, by omega, hcj⟩))

theorem grid_outer_loop_pointer (params : PPParameters) (h : HostMem) (k c : Nat)
    (hc : (h.matrix c).agent_pointer = NULL_AGENT_POINTER ∨
      ∃ i j, i < k ∧ j < params.grid_y ∧ c = gridIndex params i j) :
    ((grid_outer_loop params h k).matrix c).agent_pointer = NULL_AGENT_POINTER := by
  induction k with
  | zero =>
    rcases hc with h1 | ⟨i, j, hi, -, -⟩
    · exact h1
    · exact absurd hi (Nat.not_lt_zero i)
  | succ k ih =>
    simp only [grid_outer_loop]
    apply grid_inner_loop_pointer
    rcases hc with h1 | ⟨i, j, hi, hj, hcj⟩
    · exact Or.inl (ih (Or.inl h1))
    · by_cases hik : i = k
      · subst hik; exact Or.inr ⟨j, hj, hcj⟩
      · exact Or.inl (ih (Or.inr ⟨i, j, by omega, hj, hcj⟩))

/-- After the grid initialisation every cell of the grid has an empty occupant
list. -/
theorem ppc_matrix_init_pointer (params : PPParameters) (h : HostMem) (c : Nat)
    (hc : InGrid params c) :
    ((ppc_matrix_init params h).matrix c).agent_pointer = NULL_AGENT_POINTER := by
  obtain ⟨i, j, hi, hj, hcij⟩ := hc
  exact grid_outer_loop_pointer params h params.grid_x c (Or.inr ⟨i, j, hi, hj, hcij⟩)

theorem population_eq (params : PPParameters)
    (hN : params.init_sheep + params.init_wolves ≤ MAX_AGENTS) :
    population params = params.init_sheep + params.init_wolves := by
  unfold population
  apply Nat.mod_eq_of_lt
  unfold MAX_AGENTS at hN
  omega

/-- The host initialisation returns, and its result satisfies the arena
invariant for the whole population. -/
theorem ppc_buffers_init_host_inv (fuel : Nat) (params : PPParameters) (h : HostMem)
    (hN : params.init_sheep + params.init_wolves ≤ MAX_AGENTS)
    (hx : 0 < params.grid_x) (hy : 0 < params.grid_y)
    (hfuel : params.init_sheep + params.init_wolves ≤ fuel) :
    ∃ h', ppc_buffers_init_host fuel params h = some h' ∧
      AgentInv params (ppc_matrix_init params (ppc_stats_init params h))
        (params.init_sheep + params.init_wolves) h' ∧
      (∀ a, params.init_sheep + params.init_wolves ≤ a → a < MAX_AGENTS →
        h'.agents a = empty_agent) := by
  have hpop := population_eq params hN
  have := agent_loop_complete fuel params (ppc_matrix_init params (ppc_stats_init params h))
    hx hy (fun c hc => ppc_matrix_init_pointer params _ c hc) (by omega) MAX_AGENTS (by omega)
  rw [hpop] at this
  exact this

/-- On a grid with `grid_x * grid_y < 2 ^ 32` the index of every grid position
lies inside the matrix region. -/
theorem gridIndex_in_region (params : PPParameters)
    (hxy : params.grid_x * params.grid_y < 2 ^ 32)
    (i j : Nat) (hi : i < params.grid_x) (hj : j < params.grid_y) :
    gridIndex params i j < matrix_cells params := by
  obtain ⟨he, hlt⟩ := gridIndex_lt params hxy i j hi hj
  unfold matrix_cells
  rw [he, Nat.mod_eq_of_lt hxy]
  exact hlt

/-- On a non-empty grid with `grid_x * grid_y < 2 ^ 32` the cell an agent draws
lies inside the matrix region. -/
theorem drawn_cell_in_region (params : PPParameters) (rng0 : GRand) (a : Nat)
    (hx : 0 < params.grid_x) (hy : 0 < params.grid_y)
    (hxy : params.grid_x * params.grid_y < 2 ^ 32) :
    drawn_cell params rng0 a < matrix_cells params := by
  obtain ⟨i, j, hi, hj, hc⟩ : InGrid params (drawn_cell params rng0 a) :=
    place_cell_inGrid params _ hx hy
  rw [hc]
  exact gridIndex_in_region params hxy i j hi hj

/-- C7: for every initial population with
`init_sheep + init_wolves ≤ MAX_AGENTS` (on a non-empty grid with
`grid_x * grid_y < 2 ^ 32`, for every generator state and every previous
content of the regions) the host initialisation returns, every cell index it
uses lies inside the matrix region, and afterwards every slot `i < init_sheep` has type
`SHEEP_ID`, every slot `init_sheep ≤ i < init_sheep + init_wolves` has type
`WOLF_ID`, and every remaining slot of the arena is empty: energy 0, action 0,
`next` the null sentinel. -/
theorem ppc_buffers_init_species (fuel : Nat) (params : PPParameters) (h : HostMem)
    (hN : params.init_sheep + params.init_wolves ≤ MAX_AGENTS)
    (hx : 0 < params.grid_x) (hy : 0 < params.grid_y)
    (hxy : params.grid_x * params.grid_y < 2 ^ 32)
    (hfuel : params.init_sheep + params.init_wolves ≤ fuel) :
    ∃ h', ppc_buffers_init_host fuel params h = some h' ∧
      (∀ i, i < params.init_sheep → (h'.agents i).type = SHEEP_ID) ∧
      (∀ i, params.init_sheep ≤ i → i < params.init_sheep + params.init_wolves →
        (h'.agents i).type = WOLF_ID) ∧
      (∀ i, params.init_sheep + params.init_wolves ≤ i → i < MAX_AGENTS →
        (h'.agents i).energy = 0 ∧ (h'.agents i).action = 0 ∧
          (h'.agents i).next = NULL_AGENT_POINTER) ∧
      (∀ i j, i < params.grid_x → j < params.grid_y →
        gridIndex params i j < matrix_cells params) ∧
      (∀ a, drawn_cell params (ppc_matrix_init params (ppc_stats_init params h)).rng a
        < matrix_cells params) := by
  obtain ⟨h', hret, inv, hempty⟩ := ppc_buffers_init_host_inv fuel params h hN hx hy hfuel
  refine ⟨h', hret, ?_, ?_, ?_, gridIndex_in_region params hxy,
    fun a => drawn_cell_in_region params _ a hx hy hxy⟩
  · intro i hi
    have := (inv.species i (by omega)).1
    rw [this]
    unfold slot_type
    rw [if_pos hi]
  · intro i hi1 hi2
    have := (inv.species i hi2).1
    rw [this]
    unfold slot_type
    rw [if_neg (by omega)]
  · intro i hi1 hi2
    rw [hempty i hi1 hi2]
    exact ⟨rfl, rfl, rfl⟩

/-- Witness for C7: the example configuration (3 sheep, 2 wolves, 3 by 2 grid). -/
theorem ppc_buffers_init_species_witness :
    ∃ h', ppc_buffers_init_host 5 example_params example_mem = some h' ∧
      (∀ i, i < example_params.init_sheep → (h'.agents i).type = SHEEP_ID) ∧
      (∀ i, example_params.init_sheep ≤ i →
        i < example_params.init_sheep + example_params.init_wolves →
        (h'.agents i).type = WOLF_ID) ∧
      (∀ i, example_params.init_sheep + example_params.init_wolves ≤ i → i < MAX_AGENTS →
        (h'.agents i).energy = 0 ∧ (h'.agents i).action = 0 ∧
          (h'.agents i).next = NULL_AGENT_POINTER) ∧
      (∀ i j, i < example_params.grid_x → j < example_params.grid_y →
        gridIndex example_params i j < matrix_cells example_params) ∧
      (∀ a, drawn_cell example_params
          (ppc_matrix_init example_params (ppc_stats_init example_params example_mem)).rng a
        < matrix_cells example_params) :=
  ppc_buffers_init_species 5 example_params example_mem (by decide) (by decide) (by decide)
    (by decide) (by decide)

/-- C8: for every initial population `≤ MAX_AGENTS` (on a non-empty grid with
`grid_x * grid_y < 2 ^ 32`, for every generator state, i.e. every sequence of
random coordinates) the host initialisation returns, so every tail search
terminated, every cell index it uses lies inside the matrix region, and
afterwards the
occupant list of every grid cell, followed from `agent_pointer` through
`next`, reaches the null sentinel within `MAX_AGENTS` hops without visiting a
slot twice; every `agent_pointer` of a grid cell and every `next` of the arena
is the null sentinel or the index of a populated slot. -/
theorem ppc_buffers_init_lists (fuel : Nat) (params : PPParameters) (h : HostMem)
    (hN : params.init_sheep + params.init_wolves ≤ MAX_AGENTS)
    (hx : 0 < params.grid_x) (hy : 0 < params.grid_y)
    (hxy : params.grid_x * params.grid_y < 2 ^ 32)
    (hfuel : params.init_sheep + params.init_wolves ≤ fuel) :
    ∃ h', ppc_buffers_init_host fuel params h = some h' ∧
      (∀ i j, i < params.grid_x → j < params.grid_y →
        ∃ l, occupants h'.agents MAX_AGENTS
            (h'.matrix (gridIndex params i j)).agent_pointer = some l ∧
          l.Nodup ∧ l.length ≤ MAX_AGENTS ∧
          ∀ a, a ∈ l → a < params.init_sheep + params.init_wolves) ∧
      (∀ i j, i < params.grid_x → j < params.grid_y →
        (h'.matrix (gridIndex params i j)).agent_pointer = NULL_AGENT_POINTER ∨
        (h'.matrix (gridIndex params i j)).agent_pointer
          < params.init_sheep + params.init_wolves) ∧
      (∀ a, a < MAX_AGENTS →
        (h'.agents a).next = NULL_AGENT_POINTER ∨
        (h'.agents a).next < params.init_sheep + params.init_wolves) ∧
      (∀ i j, i < params.grid_x → j < params.grid_y →
        gridIndex params i j < matrix_cells params) ∧
      (∀ a, drawn_cell params (ppc_matrix_init params (ppc_stats_init params h)).rng a
        < matrix_cells params) := by
  obtain ⟨h', hret, inv, hempty⟩ := ppc_buffers_init_host_inv fuel params h hN hx hy hfuel
  refine ⟨h', hret, ?_, ?_, ?_, gridIndex_in_region params hxy,
    fun a => drawn_cell_in_region params _ a hx hy hxy⟩
  · intro i j hi hj
    have hin : InGrid params (gridIndex params i j) := ⟨i, j, hi, hj, rfl⟩
    have hlen := cell_agents_length_le params
      (ppc_matrix_init params (ppc_stats_init params h)).rng
      (params.init_sheep + params.init_wolves) (gridIndex params i j)
    refine ⟨_, chain_occupants _ _ _ _ (inv.chain _ hin) (by omega),
      cell_agents_nodup _ _ _ _, by omega, ?_⟩
    intro a ha
    exact ((mem_cell_agents _ _ _ _ _).mp ha).1
  · intro i j hi hj
    exact inv.head_lt _ ⟨i, j, hi, hj, rfl⟩
  · intro a ha
    by_cases hlt : a < params.init_sheep + params.init_wolves
    · exact inv.next_lt a hlt
    · rw [hempty a (by omega) ha]
      exact Or.inl rfl

/-- Witness for C8: the example configuration (3 sheep, 2 wolves, 3 by 2 grid). -/
theorem ppc_buffers_init_lists_witness :
    ∃ h', ppc_buffers_init_host 5 example_params example_mem = some h' ∧
      (∀ i j, i < example_params.grid_x → j < example_params.grid_y →
        ∃ l, occupants h'.agents MAX_AGENTS
            (h'.matrix (gridIndex example_params i j)).agent_pointer = some l ∧
          l.Nodup ∧ l.length ≤ MAX_AGENTS ∧
          ∀ a, a ∈ l → a < example_params.init_sheep + example_params.init_wolves) ∧
      (∀ i j, i < example_params.grid_x → j < example_params.grid_y →
        (h'.matrix (gridIndex example_params i j)).agent_pointer = NULL_AGENT_POINTER ∨
        (h'.matrix (gridIndex example_params i j)).agent_pointer
          < example_params.init_sheep + example_params.init_wolves) ∧
      (∀ a, a < MAX_AGENTS →
        (h'.agents a).next = NULL_AGENT_POINTER ∨
        (h'.agents a).next < example_params.init_sheep + example_params.init_wolves) ∧
      (∀ i j, i < example_params.grid_x → j < example_params.grid_y →
        gridIndex example_params i j < matrix_cells example_params) ∧
      (∀ a, drawn_cell example_params
          (ppc_matrix_init example_params (ppc_stats_init example_params example_mem)).rng a
        < matrix_cells example_params) :=
  ppc_buffers_init_lists 5 example_params example_mem (by decide) (by decide) (by decide)
    (by decide) (by decide)

/-! ## Control flow: failures short-circuit -/

theorem allOk_nil : AllOk [] := by
  intro op status h
  cases h

theorem allOk_append {l1 l2 : List Event} (h1 : AllOk l1) (h2 : AllOk l2) :
    AllOk (l1 ++ l2) := by
  intro op status h
  rcases List.mem_append.mp h with h | h
  · exact h1 op status h
  · exact h2 op status h

theorem allOk_singleton_of_not_call (e : Event) (he : ∀ op status, e ≠ Event.call op status) :
    AllOk [e] := by
  intro op status h
  rw [List.mem_singleton] at h
  exact absurd h.symm (he op status)

theorem allOk_singleton_call (op : DevOp) : AllOk [Event.call op 0] := by
  intro op' status h
  rw [List.mem_singleton] at h
  cases h
  rfl

theorem sound_pure {α : Type} (a : α) : Sound (pure a : Run α) := by
  intro w
  exact ⟨[], (List.append_nil _).symm, allOk_nil⟩

theorem sound_bind {α β : Type} (m : Run α) (f : α → Run β)
    (hm : Sound m) (hf : ∀ a, Sound (f a)) : Sound (m >>= f) := by
  intro w
  obtain ⟨ext1, hlog1, htr1⟩ := hm w
  show ∃ ext, (Run.bind m f w).2.log = w.log ++ ext ∧ Trail (Run.bind m f w).1 ext
  unfold Run.bind
  rcases hmw : m w with ⟨o, w'⟩
  rw [hmw] at hlog1 htr1
  cases o with
  | ok a =>
    obtain ⟨ext2, hlog2, htr2⟩ := hf a w'
    refine ⟨ext1 ++ ext2, ?_, ?_⟩
    · simp only
      rw [hlog2, hlog1, List.append_assoc]
    · simp only
      rcases hfa : f a w' with ⟨o2, w2⟩
      rw [hfa] at htr2
      cases o2 with
      | ok b => exact allOk_append htr1 htr2
      | fault => exact allOk_append htr1 htr2
      | error =>
        obtain ⟨pre, op, status, he, hne, hpre⟩ := htr2
        exact ⟨ext1 ++ pre, op, status, by rw [he, List.append_assoc], hne,
          allOk_append htr1 hpre⟩
  | error => exact ⟨ext1, hlog1, htr1⟩
  | fault => exact ⟨ext1, hlog1, htr1⟩

theorem sound_call (env : List Event → DevOp → Int) (op : DevOp) : Sound (call env op) := by
  intro w
  refine ⟨[Event.call op (env w.log op)], ?_, ?_⟩
  · unfold call
    simp only
    split <;> rfl
  · unfold call
    simp only
    by_cases h : env w.log op = 0
    · rw [if_pos h, h]
      exact allOk_singleton_call op
    · rw [if_neg h]
      exact ⟨[], op, _, rfl, h, allOk_nil⟩

theorem sound_call_unchecked (env : List Event → DevOp → Int) (op : DevOp) :
    Sound (call_unchecked env op) := by
  intro w
  refine ⟨[Event.call_unchecked op (env w.log op)], rfl, ?_⟩
  exact allOk_singleton_of_not_call _ (fun _ _ h => by cases h)

theorem sound_emit (e : Event) (he : ∀ op status, e ≠ Event.call op status) :
    Sound (emit e) := by
  intro w
  exact ⟨[e], rfl, allOk_singleton_of_not_call e he⟩

theorem sound_modify_mem (f : HostMem → HostMem) : Sound (modify_mem f) := by
  intro w
  exact ⟨[], (List.append_nil _).symm, allOk_nil⟩

theorem sound_modify_mem_opt (f : HostMem → Option HostMem) : Sound (modify_mem_opt f) := by
  intro w
  refine ⟨[], ?_, ?_⟩
  · unfold modify_mem_opt
    split <;> simp
  · unfold modify_mem_opt
    split
    · exact allOk_nil
    · exact allOk_nil

theorem sound_create_buffer (env : List Event → DevOp → Int) (r : Region) :
    Sound (create_buffer env r) := by
  intro w
  refine ⟨[Event.call (DevOp.create_buffer r) (env w.log (DevOp.create_buffer r))], ?_, ?_⟩
  · unfold create_buffer
    simp only
    split <;> rfl
  · unfold create_buffer
    simp only
    by_cases h : env w.log (DevOp.create_buffer r) = 0
    · rw [if_pos h, h]
      exact allOk_singleton_call _
    · rw [if_neg h]
      exact ⟨[], _, _, rfl, h, allOk_nil⟩

theorem sound_create_kernel (env : List Event → DevOp → Int) (k : Kernel) :
    Sound (create_kernel env k) := by
  intro w
  refine ⟨[Event.call (DevOp.create_kernel k) (env w.log (DevOp.create_kernel k))], ?_, ?_⟩
  · unfold create_kernel
    simp only
    split <;> rfl
  · unfold create_kernel
    simp only
    by_cases h : env w.log (DevOp.create_kernel k) = 0
    · rw [if_pos h, h]
      exact allOk_singleton_call _
    · rw [if_neg h]
      exact ⟨[], _, _, rfl, h, allOk_nil⟩

theorem sound_ppc_kernels_create (env : List Event → DevOp → Int) :
    Sound (ppc_kernels_create env) := by
  unfold ppc_kernels_create
  exact sound_bind _ _ (sound_create_kernel env _) (fun _ => sound_create_kernel env _)

theorem sound_ppc_buffers_init (env : List Event → DevOp → Int) (fuel : Nat)
    (params : PPParameters) : Sound (ppc_buffers_init env fuel params) := by
  unfold ppc_buffers_init
  refine sound_bind _ _ (sound_create_buffer env _) (fun _ => ?_)
  refine sound_bind _ _ (sound_create_buffer env _) (fun _ => ?_)
  refine sound_bind _ _ (sound_create_buffer env _) (fun _ => ?_)
  refine sound_bind _ _ (sound_create_buffer env _) (fun _ => ?_)
  refine sound_bind _ _ (sound_create_buffer env _) (fun _ => ?_)
  refine sound_bind _ _ (sound_call env _) (fun _ => ?_)
  refine sound_bind _ _ (sound_modify_mem _) (fun _ => ?_)
  refine sound_bind _ _ (sound_call env _) (fun _ => ?_)
  refine sound_bind _ _ (sound_modify_mem _) (fun _ => ?_)
  refine sound_bind _ _ (sound_call env _) (fun _ => ?_)
  refine sound_bind _ _ (sound_call env _) (fun _ => ?_)
  refine sound_bind _ _ (sound_modify_mem_opt _) (fun _ => ?_)
  refine sound_bind _ _ (sound_call env _) (fun _ => ?_)
  refine sound_bind _ _ (sound_call env _) (fun _ => ?_)
  refine sound_bind _ _ (sound_call env _) (fun _ => ?_)
  refine sound_bind _ _ (sound_call env _) (fun _ => ?_)
  refine sound_bind _ _ (sound_call env _) (fun _ => ?_)
  exact sound_call env _

theorem sound_ppc_kernelargs_set (env : List Event → DevOp → Int) (simParams : PPCSimParams) :
    Sound (ppc_kernelargs_set env simParams) := by
  unfold ppc_kernelargs_set
  refine sound_bind _ _ (sound_call env _) (fun _ => ?_)
  refine sound_bind _ _ (sound_call env _) (fun _ => ?_)
  refine sound_bind _ _ (sound_call env _) (fun _ => ?_)
  refine sound_bind _ _ (sound_call env _) (fun _ => ?_)
  refine sound_bind _ _ (sound_call env _) (fun _ => ?_)
  refine sound_bind _ _ (sound_call env _) (fun _ => ?_)
  refine sound_bind _ _ (sound_call env _) (fun _ => ?_)
  refine sound_bind _ _ (sound_call env _) (fun _ => ?_)
  refine sound_bind _ _ (sound_call env _) (fun _ => ?_)
  exact sound_call env _

theorem sound_step1_turns (env : List Event → DevOp → Int) (workSizes : PPCWorkSizes)
    (n : Nat) : Sound (step1_turns env workSizes n) := by
  induction n with
  | zero => exact sound_pure ()
  | succ n ih =>
    unfold step1_turns
    exact sound_bind _ _ ih (fun _ =>
      sound_bind _ _ (sound_call env _) (fun _ => sound_call env _))

theorem sound_step2_turns (env : List Event → DevOp → Int) (workSizes : PPCWorkSizes)
    (n : Nat) : Sound (step2_turns env workSizes n) := by
  induction n with
  | zero => exact sound_pure ()
  | succ n ih =>
    unfold step2_turns
    exact sound_bind _ _ ih (fun _ =>
      sound_bind _ _ (sound_call env _) (fun _ => sound_call env _))

theorem sound_simulation_loop (env : List Event → DevOp → Int) (workSizes : PPCWorkSizes)
    (n : Nat) : Sound (simulation_loop env workSizes n) := by
  induction n with
  | zero => exact sound_pure ()
  | succ n ih =>
    unfold simulation_loop
    exact sound_bind _ _ ih (fun _ =>
      sound_bind _ _ (sound_step1_turns env workSizes _) (fun _ =>
        sound_bind _ _ (sound_call env _) (fun _ => sound_step2_turns env workSizes _)))

theorem sound_ppc_simulate (env : List Event → DevOp → Int) (workSizes : PPCWorkSizes)
    (params : PPParameters) : Sound (ppc_simulate env workSizes params) := by
  unfold ppc_simulate
  exact sound_bind _ _ (sound_call_unchecked env _)
    (fun _ => sound_simulation_loop env workSizes _)

theorem sound_ppc_stats_get (env : List Event → DevOp → Int) (params : PPParameters) :
    Sound (ppc_stats_get env params) := by
  unfold ppc_stats_get
  refine sound_bind _ _ (sound_call env _) (fun _ => sound_bind _ _ ?_ (fun _ => sound_call env _))
  intro w
  by_cases hf : env w.log DevOp.fopen = 0
  · simp only [hf, if_true]
    exact sound_emit _ (fun _ _ h => by cases h) w
  · simp only [hf, if_false]
    exact ⟨[], by simp, allOk_nil⟩

theorem sound_main_body (env : List Event → DevOp → Int) (fuel : Nat) (args_values : PPCArgs)
    (cu : Nat) (params : PPParameters) :
    Sound (main_body env fuel args_values cu params) := by
  unfold main_body
  refine sound_bind _ _ (sound_call env _) (fun _ =>
    sound_bind _ _ (sound_call env _) (fun _ => sound_bind _ _ ?_ (fun ws =>
      sound_bind _ _ (sound_ppc_kernels_create env) (fun _ =>
        sound_bind _ _ (sound_ppc_buffers_init env fuel params) (fun _ =>
          sound_bind _ _ (sound_ppc_kernelargs_set env _) (fun _ =>
            sound_bind _ _ (sound_ppc_simulate env ws params) (fun _ =>
              sound_bind _ _ (sound_ppc_stats_get env params) (fun _ =>
                sound_call env _))))))))
  intro w
  refine ⟨[], ?_, ?_⟩
  · split <;> simp
  · split
    · exact allOk_nil
    · exact allOk_nil

theorem main_cleanup_is_teardown (w : Host) (e : Event) (he : e ∈ main_cleanup w) :
    e.is_teardown = true := by
  unfold main_cleanup ppc_kernels_free at he
  simp only [List.mem_append, List.mem_map, List.mem_cons, List.mem_singleton] at he
  rcases he with ((h | h) | ⟨r, -, rfl⟩) | h
  · split at h
    · rw [List.mem_singleton] at h; rw [h]; rfl
    · cases h
  · split at h
    · rw [List.mem_singleton] at h; rw [h]; rfl
    · cases h
  · rfl
  · rcases h with h | h | h | h | h
    · rw [h]; rfl
    · rw [h]; rfl
    · rw [h]; rfl
    · rw [h]; rfl
    · cases h

theorem not_teardown_call (op : DevOp) (status : Int) :
    (Event.call op status).is_teardown = false := rfl

/-- Shape of the log of `main`: either no tested call failed, or the log is the
successful calls, the one failed call, the error report and the teardown. -/
theorem main_log_shape (env : List Event → DevOp → Int) (fuel : Nat) (args_values : PPCArgs)
    (cu : Nat) (params : PPParameters) (mem : HostMem) :
    (∀ op status, Event.call op status ∈ main env fuel args_values cu params mem → status = 0) ∨
    ∃ pre op status w, status ≠ 0 ∧ AllOk pre ∧
      main env fuel args_values cu params mem =
        pre ++ Event.call op status :: Event.error_report :: main_cleanup w := by
  obtain ⟨ext, hlog, htr⟩ := sound_main_body env fuel args_values cu params (main_init mem)
  unfold main
  rcases hb : main_body env fuel args_values cu params (main_init mem) with ⟨o, w⟩
  rw [hb] at hlog htr
  have hlog' : w.log = ext := by
    simpa [main_init] using hlog
  cases o with
  | ok a =>
    left
    intro op status hmem
    simp only at hmem
    rcases List.mem_append.mp hmem with h | h
    · rw [hlog'] at h
      exact htr op status h
    · have := main_cleanup_is_teardown w _ h
      rw [not_teardown_call] at this
      cases this
  | fault =>
    left
    intro op status hmem
    simp only at hmem
    rw [hlog'] at hmem
    exact htr op status hmem
  | error =>
    right
    obtain ⟨pre, op, status, he, hne, hpre⟩ := htr
    refine ⟨pre, op, status, w, hne, hpre, ?_⟩
    simp only
    rw [hlog', he]
    simp

/-! ## Teardown -/

/-- C10: the code at the reported input. When `ppc_buffers_init` has created
the statistics region and the creation of the matrix region fails, only the
statistics handle is non-null, and `ppc_devicebuffers_free` releases that
region twice. When all five regions were created it releases the statistics
region twice and never releases the species parameter region. -/
theorem ppc_devicebuffers_free_double_release :
    (ppc_buffers_init env_matrix_fails 5 example_params_tall
        (main_init example_mem)).2.buffersDevice = ⟨true, false, false, false, false⟩ ∧
    ppc_devicebuffers_free ⟨true, false, false, false, false⟩ = [Region.stats, Region.stats] ∧
    ppc_devicebuffers_free ⟨true, true, true, true, true⟩ =
      [Region.stats, Region.agents, Region.matrix, Region.stats, Region.rng_seeds] := by
  decide

/-! ## Statistics output -/

theorem stats_lines_length (stats : Nat → PPStatistics) (n : Nat) :
    (stats_lines stats n).length = n := by
  induction n with
  | zero => rfl
  | succ n ih => simp [stats_lines, ih]

theorem stats_lines_get (stats : Nat → PPStatistics) (n i : Nat) (hi : i < n) :
    (stats_lines stats n)[i]? = some (stats_line (stats i)) := by
  induction n with
  | zero => exact absurd hi (Nat.not_lt_zero i)
  | succ n ih =>
    simp only [stats_lines]
    by_cases hin : i < n
    · rw [List.getElem?_append_left (by rw [stats_lines_length]; exact hin)]
      exact ih hin
    · have : i = n := by omega
      subst this
      rw [List.getElem?_append_right (by rw [stats_lines_length])]
      simp [stats_lines_length]

/-- For a count below `2^31` the conversion `%d` prints its unsigned decimal. -/
theorem fprintf_d_of_lt (v : Nat) (hv : v < 2 ^ 31) : fprintf_d v = toString v := by
  unfold fprintf_d toInt32
  have h1 : v % 2 ^ 32 = v := Nat.mod_eq_of_lt (by omega)
  rw [h1, if_pos hv]
  rfl

/-- The file written by `ppc_stats_get` has `iters + 1` lines, line `i` is
built from record `i`, and a line whose three counts are below `2^31` is their
unsigned decimals separated by tabs and ended by a newline. -/
theorem ppc_stats_get_output_lines (params : PPParameters) (stats : Nat → PPStatistics) :
    (ppc_stats_get_output params stats).length = params.iters + 1 ∧
    (∀ i, i ≤ params.iters →
      (ppc_stats_get_output params stats)[i]? = some (stats_line (stats i))) ∧
    (∀ s : PPStatistics, s.sheep < 2 ^ 31 → s.wolves < 2 ^ 31 → s.grass < 2 ^ 31 →
      stats_line s =
        toString s.sheep ++ "\t" ++ toString s.wolves ++ "\t" ++ toString s.grass ++ "\n") := by
  refine ⟨stats_lines_length _ _, fun i hi => stats_lines_get _ _ i (by omega), ?_⟩
  intro s h1 h2 h3
  unfold stats_line
  rw [fprintf_d_of_lt _ h1, fprintf_d_of_lt _ h2, fprintf_d_of_lt _ h3]

/-- C6: the code at the reported input. With `init_sheep = 3000000000` and
`iters = 0` record 0 of the initialised statistics is `(3000000000, 2, 1)`, and
the one line written by `ppc_stats_get` shows the prey count as
`-1294967296`, not as the unsigned decimal `3000000000`. -/
theorem ppc_stats_get_output_signed :
    (ppc_matrix_init example_params_big (ppc_stats_init example_params_big example_mem)).stats 0
      = ⟨3000000000, 2, 1⟩ ∧
    ppc_stats_get_output example_params_big
      (ppc_matrix_init example_params_big (ppc_stats_init example_params_big example_mem)).stats
      = ["-1294967296\t2\t1\n"] := by
  decide

/-! ## Row load of a worker -/

theorem rows_bounds (H g : Nat) (hg : 0 < g) (h3 : 3 * g ≤ H) :
    3 ≤ H / g + (if H % g > 0 then 1 else 0) ∧
    g * (H / g + (if H % g > 0 then 1 else 0) - 1) < H ∧
    H ≤ g * (H / g + (if H % g > 0 then 1 else 0)) := by
  have hdm : g * (H / g) + H % g = H := Nat.div_add_mod H g
  have hlt : H % g < g := Nat.mod_lt H hg
  have hq : 3 ≤ H / g := (Nat.le_div_iff_mul_le hg).mpr h3
  by_cases hr : H % g > 0
  · simp only [hr, if_true, Nat.add_sub_cancel]
    refine ⟨by omega, by omega, ?_⟩
    rw [Nat.mul_add, Nat.mul_one]
    omega
  · simp only [hr, if_false, Nat.add_zero]
    refine ⟨hq, ?_, by omega⟩
    have h0 : H % g = 0 := by omega
    have : g * (H / g - 1) + g = g * (H / g) := by
      rw [← Nat.mul_succ]
      congr 1
      omega
    omega

theorem rows_minimal (H g r n : Nat) (hb : g * (r - 1) < H) (hn : H ≤ g * n) : r ≤ n := by
  by_contra hlt
  have hle : n ≤ r - 1 := by omega
  have := Nat.mul_le_mul_left g hle
  omega

theorem block_start_gap (r w : Nat) (hr : 3 ≤ r) : w * r + 3 ≤ (w + 1) * r := by
  rw [Nat.add_mul, Nat.one_mul]
  omega

/-- C16: for every `num_rows ≥ 3` and every `args.gws ≥ 1` the values computed
by `ppc_numthreads_get` satisfy `rows_per_workitem ≥ 3` and
`gws * (rows_per_workitem - 1) < num_rows ≤ gws * rows_per_workitem`; so the
turns cover every row, no smaller number of turns does, and the block of
`rows_per_workitem` consecutive rows of a worker starts at least 3 rows after
the block of the previous worker. -/
theorem ppc_numthreads_get_rows (args : PPCArgs) (cu H : Nat)
    (hH : 3 ≤ H) (hW : 1 ≤ args.gws) :
    ∃ ws : PPCWorkSizes, ppc_numthreads_get args cu H = some ws ∧
      3 ≤ ws.rows_per_workitem ∧
      ws.gws * (ws.rows_per_workitem - 1) < H ∧
      H ≤ ws.gws * ws.rows_per_workitem ∧
      (∀ n, H ≤ ws.gws * n → ws.rows_per_workitem ≤ n) ∧
      (∀ w, w * ws.rows_per_workitem + 3 ≤ (w + 1) * ws.rows_per_workitem) := by
  obtain ⟨hpos, hws⟩ := ppc_numthreads_get_ok args cu H hH hW
  have hle : MIN args.gws (H / 3) ≤ H / 3 := by rw [MIN_eq_min]; omega
  have h3 : 3 * MIN args.gws (H / 3) ≤ H := by omega
  obtain ⟨b1, b2, b3⟩ := rows_bounds H _ hpos h3
  exact ⟨_, hws, b1, b2, b3, fun n hn => rows_minimal _ _ _ n b2 hn,
    fun w => block_start_gap _ w b1⟩

/-- Witness for C16: a grid of height 10 with 2 requested workers. -/
theorem ppc_numthreads_get_rows_witness :
    ∃ ws : PPCWorkSizes, ppc_numthreads_get ⟨2, 0⟩ 4 10 = some ws ∧
      3 ≤ ws.rows_per_workitem ∧
      ws.gws * (ws.rows_per_workitem - 1) < 10 ∧
      10 ≤ ws.gws * ws.rows_per_workitem ∧
      (∀ n, 10 ≤ ws.gws * n → ws.rows_per_workitem ≤ n) ∧
      (∀ w, w * ws.rows_per_workitem + 3 ≤ (w + 1) * ws.rows_per_workitem) :=
  ppc_numthreads_get_rows ⟨2, 0⟩ 4 10 (by decide) (by decide)

/-! ## Rows of concurrent workers in the block mapping -/

theorem drawn_cell_inGrid (params : PPParameters) (rng0 : GRand) (a : Nat)
    (hx : 0 < params.grid_x) (hy : 0 < params.grid_y) :
    InGrid params (drawn_cell params rng0 a) :=
  place_cell_inGrid params _ hx hy

/-- C14: for every initial population `N = init_sheep + init_wolves ≤ MAX_AGENTS`
(on a non-empty grid with `grid_x * grid_y < 2 ^ 32`, for every generator
state, i.e. every sequence of drawn coordinates) the host initialisation
returns, every cell index it uses lies inside the matrix region, and
afterwards the occupant list
of every grid cell `c` is exactly the list of the agent indices `a < N` whose
drawn cell `x_a + y_a * grid_x` is `c`, in increasing order; the drawn cell of
every populated agent is a grid cell, so the agent is in the list of that cell,
in no other list, and occurs there once. -/
theorem ppc_buffers_init_occupants (fuel : Nat) (params : PPParameters) (h : HostMem)
    (hN : params.init_sheep + params.init_wolves ≤ MAX_AGENTS)
    (hx : 0 < params.grid_x) (hy : 0 < params.grid_y)
    (hxy : params.grid_x * params.grid_y < 2 ^ 32)
    (hfuel : params.init_sheep + params.init_wolves ≤ fuel) :
    ∃ h', ppc_buffers_init_host fuel params h = some h' ∧
      (∀ i j, i < params.grid_x → j < params.grid_y →
        occupants h'.agents MAX_AGENTS (h'.matrix (gridIndex params i j)).agent_pointer =
          some ((List.range (params.init_sheep + params.init_wolves)).filter fun a =>
            drawn_cell params (ppc_matrix_init params (ppc_stats_init params h)).rng a
              = gridIndex params i j)) ∧
      (∀ a, a < params.init_sheep + params.init_wolves →
        ∃ i j, i < params.grid_x ∧ j < params.grid_y ∧
          drawn_cell params (ppc_matrix_init params (ppc_stats_init params h)).rng a
            = gridIndex params i j) ∧
      (∀ a c, a < params.init_sheep + params.init_wolves →
        List.count a ((List.range (params.init_sheep + params.init_wolves)).filter fun b =>
            drawn_cell params (ppc_matrix_init params (ppc_stats_init params h)).rng b = c) =
          if drawn_cell params (ppc_matrix_init params (ppc_stats_init params h)).rng a = c
          then 1 else 0) ∧
      (∀ i j, i < params.grid_x → j < params.grid_y →
        gridIndex params i j < matrix_cells params) ∧
      (∀ a, drawn_cell params (ppc_matrix_init params (ppc_stats_init params h)).rng a
        < matrix_cells params) := by
  obtain ⟨h', hret, inv, -⟩ := ppc_buffers_init_host_inv fuel params h hN hx hy hfuel
  refine ⟨h', hret, ?_, ?_, ?_, gridIndex_in_region params hxy,
    fun a => drawn_cell_in_region params _ a hx hy hxy⟩
  · intro i j hi hj
    have hin : InGrid params (gridIndex params i j) := ⟨i, j, hi, hj, rfl⟩
    have hlen := cell_agents_length_le params
      (ppc_matrix_init params (ppc_stats_init params h)).rng
      (params.init_sheep + params.init_wolves) (gridIndex params i j)
    exact chain_occupants _ (cell_agents params
      (ppc_matrix_init params (ppc_stats_init params h)).rng
      (params.init_sheep + params.init_wolves) (gridIndex params i j)) _ _
      (inv.chain _ hin) (by omega)
  · intro a _
    exact drawn_cell_inGrid params _ a hx hy
  · intro a c ha
    have hnd := cell_agents_nodup params
      (ppc_matrix_init params (ppc_stats_init params h)).rng
      (params.init_sheep + params.init_wolves) c
    have hmem := mem_cell_agents params
      (ppc_matrix_init params (ppc_stats_init params h)).rng
      (params.init_sheep + params.init_wolves) c a
    unfold cell_agents at hnd hmem
    by_cases hc : drawn_cell params (ppc_matrix_init params (ppc_stats_init params h)).rng a = c
    · rw [if_pos hc]
      exact List.count_eq_one_of_mem hnd (hmem.mpr ⟨ha, hc⟩)
    · rw [if_neg hc]
      exact List.count_eq_zero.mpr (fun hm => hc (hmem.mp hm).2)

/-- Witness for C14: the example configuration (3 sheep, 2 wolves, 3 by 2 grid). -/
theorem ppc_buffers_init_occupants_witness :
    ∃ h', ppc_buffers_init_host 5 example_params example_mem = some h' ∧
      (∀ i j, i < example_params.grid_x → j < example_params.grid_y →
        occupants h'.agents MAX_AGENTS
            (h'.matrix (gridIndex example_params i j)).agent_pointer =
          some ((List.range (example_params.init_sheep + example_params.init_wolves)).filter
            fun a =>
              drawn_cell example_params
                (ppc_matrix_init example_params (ppc_stats_init example_params example_mem)).rng a
                = gridIndex example_params i j)) ∧
      (∀ a, a < example_params.init_sheep + example_params.init_wolves →
        ∃ i j, i < example_params.grid_x ∧ j < example_params.grid_y ∧
          drawn_cell example_params
            (ppc_matrix_init example_params (ppc_stats_init example_params example_mem)).rng a
            = gridIndex example_params i j) ∧
      (∀ a c, a < example_params.init_sheep + example_params.init_wolves →
        List.count a
          ((List.range (example_params.init_sheep + example_params.init_wolves)).filter fun b =>
            drawn_cell example_params
              (ppc_matrix_init example_params (ppc_stats_init example_params example_mem)).rng b
              = c) =
          if drawn_cell example_params
            (ppc_matrix_init example_params (ppc_stats_init example_params example_mem)).rng a = c
          then 1 else 0) ∧
      (∀ i j, i < example_params.grid_x → j < example_params.grid_y →
        gridIndex example_params i j < matrix_cells example_params) ∧
      (∀ a, drawn_cell example_params
          (ppc_matrix_init example_params (ppc_stats_init example_params example_mem)).rng a
        < matrix_cells example_params) :=
  ppc_buffers_init_occupants 5 example_params example_mem (by decide) (by decide) (by decide)
    (by decide)
    (by decide)

/-! ## The simulation loop when every device call succeeds -/

theorem run_bind_ok {α β : Type} (m : Run α) (f : α → Run β) (w w' : Host) (a : α)
    (hm : m w = (Outcome.ok a, w')) : (m >>= f) w = f a w' := by
  show Run.bind m f w = f a w'
  unfold Run.bind
  rw [hm]

theorem run_pure {α : Type} (a : α) (w : Host) : (pure a : Run α) w = (Outcome.ok a, w) := rfl

theorem call_ok (env : List Event → DevOp → Int) (hok : ∀ l op, env l op = 0)
    (op : DevOp) (w : Host) :
    call env op w = (Outcome.ok (), { w with log := w.log ++ [Event.call op 0] }) := by
  unfold call
  simp only [hok, if_true]

theorem call_unchecked_ok (env : List Event → DevOp → Int) (hok : ∀ l op, env l op = 0)
    (op : DevOp) (w : Host) :
    call_unchecked env op w =
      (Outcome.ok (), { w with log := w.log ++ [Event.call_unchecked op 0] }) := by
  unfold call_unchecked
  simp only [hok]

theorem step1_turns_ok (env : List Event → DevOp → Int) (hok : ∀ l op, env l op = 0)
    (workSizes : PPCWorkSizes) (n : Nat) (w : Host) :
    step1_turns env workSizes n w =
      (Outcome.ok (), { w with
        log := w.log ++ (List.range n).flatMap (step1_turn_events workSizes.gws) }) := by
  induction n with
  | zero => simp [step1_turns, run_pure]
  | succ n ih =>
    unfold step1_turns
    rw [run_bind_ok _ _ _ _ _ ih, run_bind_ok _ _ _ _ _ (call_ok env hok _ _),
      call_ok env hok]
    simp [List.range_succ, List.flatMap_append, step1_turn_events]

theorem step2_turns_ok (env : List Event → DevOp → Int) (hok : ∀ l op, env l op = 0)
    (workSizes : PPCWorkSizes) (n : Nat) (w : Host) :
    step2_turns env workSizes n w =
      (Outcome.ok (), { w with
        log := w.log ++ (List.range n).flatMap (step2_turn_events workSizes.gws) }) := by
  induction n with
  | zero => simp [step2_turns, run_pure]
  | succ n ih =>
    unfold step2_turns
    rw [run_bind_ok _ _ _ _ _ ih, run_bind_ok _ _ _ _ _ (call_ok env hok _ _),
      call_ok env hok]
    simp [List.range_succ, List.flatMap_append, step2_turn_events]

theorem simulation_loop_ok (env : List Event → DevOp → Int) (hok : ∀ l op, env l op = 0)
    (workSizes : PPCWorkSizes) (n : Nat) (w : Host) :
    simulation_loop env workSizes n w =
      (Outcome.ok (), { w with log := w.log ++ simulation_events workSizes n }) := by
  induction n with
  | zero => simp [simulation_loop, simulation_events, run_pure]
  | succ n ih =>
    unfold simulation_loop
    rw [run_bind_ok _ _ _ _ _ ih, run_bind_ok _ _ _ _ _ (step1_turns_ok env hok _ _ _),
      run_bind_ok _ _ _ _ _ (call_ok env hok _ _), step2_turns_ok env hok]
    simp [simulation_events, List.range_succ, List.flatMap_append, iteration_events]

theorem ppc_simulate_ok (env : List Event → DevOp → Int) (hok : ∀ l op, env l op = 0)
    (workSizes : PPCWorkSizes) (params : PPParameters) (w : Host) :
    ppc_simulate env workSizes params w =
      (Outcome.ok (), { w with
        log := w.log ++
          Event.call_unchecked DevOp.finish 0 :: simulation_events workSizes params.iters }) := by
  unfold ppc_simulate
  rw [run_bind_ok _ _ _ _ _ (call_unchecked_ok env hok _ _), simulation_loop_ok env hok]
  simp

theorem dispatches_step1 (gws n : Nat) :
    (((List.range n).flatMap (step1_turn_events gws)).filter Event.is_dispatch).length = n := by
  induction n with
  | zero => rfl
  | succ n ih =>
    rw [List.range_succ, List.flatMap_append, List.filter_append, List.length_append, ih]
    simp [step1_turn_events, Event.is_dispatch]

theorem dispatches_step2 (gws n : Nat) :
    (((List.range n).flatMap (step2_turn_events gws)).filter Event.is_dispatch).length = n := by
  induction n with
  | zero => rfl
  | succ n ih =>
    rw [List.range_succ, List.flatMap_append, List.filter_append, List.length_append, ih]
    simp [step2_turn_events, Event.is_dispatch]

theorem dispatches_iteration (workSizes : PPCWorkSizes) (iter : Nat) :
    ((iteration_events workSizes iter).filter Event.is_dispatch).length
      = 2 * workSizes.rows_per_workitem := by
  unfold iteration_events
  rw [List.filter_append, List.filter_append, List.length_append, List.length_append,
    dispatches_step1, dispatches_step2]
  simp [Event.is_dispatch]
  omega

theorem dispatches_simulation (workSizes : PPCWorkSizes) (iters : Nat) :
    ((simulation_events workSizes iters).filter Event.is_dispatch).length
      = 2 * iters * workSizes.rows_per_workitem := by
  induction iters with
  | zero => simp [simulation_events]
  | succ n ih =>
    unfold simulation_events at ih ⊢
    rw [List.range_succ, List.flatMap_append, List.filter_append, List.length_append, ih]
    simp only [List.flatMap_singleton, dispatches_iteration]
    ring

theorem dispatch_of_simulation (workSizes : PPCWorkSizes) (iters : Nat) (e : Event)
    (he : e ∈ simulation_events workSizes iters) (hd : e.is_dispatch = true) :
    e = Event.call (DevOp.enqueue_ndrange_kernel Kernel.step1 workSizes.gws 1) 0 ∨
    e = Event.call (DevOp.enqueue_ndrange_kernel Kernel.step2 workSizes.gws 1) 0 := by
  unfold simulation_events iteration_events at he
  simp only [List.mem_flatMap, List.mem_append, List.mem_range, List.mem_singleton,
    step1_turn_events, step2_turn_events, List.mem_cons, List.not_mem_nil, or_false] at he
  obtain ⟨i, -, h⟩ := he
  rcases h with (⟨t, -, h | h⟩ | h) | ⟨t, -, h | h⟩
  · rw [h] at hd; cases hd
  · exact Or.inl h
  · rw [h] at hd; cases hd
  · rw [h] at hd; cases hd
  · exact Or.inr h

theorem simulation_events_succ (workSizes : PPCWorkSizes) (n : Nat) :
    simulation_events workSizes (n + 1) =
      simulation_events workSizes n ++ iteration_events workSizes (n + 1) := by
  unfold simulation_events
  rw [List.range_succ, List.flatMap_append]
  simp

theorem simulation_events_split (workSizes : PPCWorkSizes) (n d : Nat) :
    ∃ rest, simulation_events workSizes (n + 1 + d) =
      simulation_events workSizes n ++ iteration_events workSizes (n + 1) ++ rest := by
  induction d with
  | zero => exact ⟨[], by rw [Nat.add_zero, simulation_events_succ, List.append_nil]⟩
  | succ d ih =>
    obtain ⟨rest, hr⟩ := ih
    refine ⟨rest ++ iteration_events workSizes (n + 1 + d + 1), ?_⟩
    rw [← Nat.add_assoc, simulation_events_succ, hr, List.append_assoc]

/-- C12: when every device call succeeds, `ppc_simulate` returns success and
issues, after its initial `clFinish`, for `iter = 1, ..., iters` in that
order: the step-1 turns `0 .. rows_per_workitem - 1` (turn number bound, then
dispatch), the binding of `iter` to `step2`, the step-2 turns
`0 .. rows_per_workitem - 1`. Every dispatch has global size `gws`, there are
`2 * iters * rows_per_workitem` dispatches, and the operations of iteration
`n + 1` follow all operations of the iterations `1 .. n`. -/
theorem ppc_simulate_dispatch_sequence (env : List Event → DevOp → Int)
    (workSizes : PPCWorkSizes) (params : PPParameters) (w : Host)
    (hok : ∀ l op, env l op = 0) :
    ppc_simulate env workSizes params w =
      (Outcome.ok (), { w with
        log := w.log ++
          Event.call_unchecked DevOp.finish 0 :: simulation_events workSizes params.iters }) ∧
    ((simulation_events workSizes params.iters).filter Event.is_dispatch).length
      = 2 * params.iters * workSizes.rows_per_workitem ∧
    (∀ e, e ∈ simulation_events workSizes params.iters → e.is_dispatch = true →
      e = Event.call (DevOp.enqueue_ndrange_kernel Kernel.step1 workSizes.gws 1) 0 ∨
      e = Event.call (DevOp.enqueue_ndrange_kernel Kernel.step2 workSizes.gws 1) 0) ∧
    (∀ n, n < params.iters → ∃ rest, simulation_events workSizes params.iters =
      simulation_events workSizes n ++ iteration_events workSizes (n + 1) ++ rest) := by
  refine ⟨ppc_simulate_ok env hok workSizes params w, dispatches_simulation _ _,
    dispatch_of_simulation _ _, ?_⟩
  intro n hn
  obtain ⟨d, hd⟩ : ∃ d, params.iters = n + 1 + d := ⟨params.iters - (n + 1), by omega⟩
  rw [hd]
  exact simulation_events_split workSizes n d

/-- Witness for C12: the runtime in which every call succeeds, 2 workers,
3 rows per worker, 2 iterations. -/
theorem ppc_simulate_dispatch_sequence_witness :
    (∀ (l : List Event) (op : DevOp), env_ok l op = 0) ∧
    (ppc_simulate env_ok ⟨2, 0, 2, 3⟩ example_params (main_init example_mem) =
      (Outcome.ok (), { main_init example_mem with
        log := (main_init example_mem).log ++
          Event.call_unchecked DevOp.finish 0 ::
            simulation_events ⟨2, 0, 2, 3⟩ example_params.iters }) ∧
    ((simulation_events ⟨2, 0, 2, 3⟩ example_params.iters).filter Event.is_dispatch).length
      = 2 * example_params.iters * (⟨2, 0, 2, 3⟩ : PPCWorkSizes).rows_per_workitem ∧
    (∀ e, e ∈ simulation_events ⟨2, 0, 2, 3⟩ example_params.iters → e.is_dispatch = true →
      e = Event.call (DevOp.enqueue_ndrange_kernel Kernel.step1
        (⟨2, 0, 2, 3⟩ : PPCWorkSizes).gws 1) 0 ∨
      e = Event.call (DevOp.enqueue_ndrange_kernel Kernel.step2
        (⟨2, 0, 2, 3⟩ : PPCWorkSizes).gws 1) 0) ∧
    (∀ n, n < example_params.iters → ∃ rest,
      simulation_events ⟨2, 0, 2, 3⟩ example_params.iters =
        simulation_events ⟨2, 0, 2, 3⟩ n ++ iteration_events ⟨2, 0, 2, 3⟩ (n + 1) ++ rest)) :=
  ⟨fun _ _ => rfl,
    ppc_simulate_dispatch_sequence env_ok ⟨2, 0, 2, 3⟩ example_params (main_init example_mem)
      (fun _ _ => rfl)⟩

/-! ## No host barrier inside the simulation loop -/

theorem appends_pure {α : Type} (P : Event → Prop) (a : α) : Appends P (pure a : Run α) := by
  intro w
  exact ⟨[], (List.append_nil _).symm, fun e he => by cases he⟩

theorem appends_bind {α β : Type} (P : Event → Prop) (m : Run α) (f : α → Run β)
    (hm : Appends P m) (hf : ∀ a, Appends P (f a)) : Appends P (m >>= f) := by
  intro w
  obtain ⟨ext1, hlog1, hp1⟩ := hm w
  show ∃ ext, (Run.bind m f w).2.log = w.log ++ ext ∧ ∀ e, e ∈ ext → P e
  unfold Run.bind
  rcases hmw : m w with ⟨o, w'⟩
  rw [hmw] at hlog1
  cases o with
  | ok a =>
    obtain ⟨ext2, hlog2, hp2⟩ := hf a w'
    refine ⟨ext1 ++ ext2, ?_, ?_⟩
    · simp only
      rw [hlog2, hlog1, List.append_assoc]
    · intro e he
      rcases List.mem_append.mp he with h | h
      · exact hp1 e h
      · exact hp2 e h
  | error => exact ⟨ext1, hlog1, hp1⟩
  | fault => exact ⟨ext1, hlog1, hp1⟩

theorem appends_call (P : Event → Prop) (env : List Event → DevOp → Int) (op : DevOp)
    (hP : ∀ status, P (Event.call op status)) : Appends P (call env op) := by
  intro w
  refine ⟨[Event.call op (env w.log op)], ?_, ?_⟩
  · unfold call
    simp only
    split <;> rfl
  · intro e he
    rw [List.mem_singleton] at he
    rw [he]
    exact hP _

theorem appends_mono {α : Type} (P Q : Event → Prop) (m : Run α) (hPQ : ∀ e, P e → Q e)
    (h : Appends P m) : Appends Q m := by
  intro w
  obtain ⟨ext, hlog, hp⟩ := h w
  exact ⟨ext, hlog, fun e he => hPQ e (hp e he)⟩

theorem appends_call_unchecked (P : Event → Prop) (env : List Event → DevOp → Int) (op : DevOp)
    (hP : ∀ status, P (Event.call_unchecked op status)) : Appends P (call_unchecked env op) := by
  intro w
  refine ⟨[Event.call_unchecked op (env w.log op)], rfl, ?_⟩
  intro e he
  rw [List.mem_singleton] at he
  rw [he]
  exact hP _

theorem appends_emit (P : Event → Prop) (e : Event) (hP : P e) : Appends P (emit e) := by
  intro w
  refine ⟨[e], rfl, ?_⟩
  intro e' he
  rw [List.mem_singleton] at he
  rw [he]
  exact hP

theorem appends_modify_mem (P : Event → Prop) (f : HostMem → HostMem) :
    Appends P (modify_mem f) := by
  intro w
  exact ⟨[], by simp [modify_mem], fun e he => by cases he⟩

theorem appends_modify_mem_opt (P : Event → Prop) (f : HostMem → Option HostMem) :
    Appends P (modify_mem_opt f) := by
  intro w
  refine ⟨[], ?_, fun e he => by cases he⟩
  unfold modify_mem_opt
  split <;> simp

theorem appends_create_buffer (P : Event → Prop) (env : List Event → DevOp → Int) (r : Region)
    (hP : ∀ status, P (Event.call (DevOp.create_buffer r) status)) :
    Appends P (create_buffer env r) := by
  intro w
  refine ⟨[Event.call (DevOp.create_buffer r) (env w.log (DevOp.create_buffer r))], ?_, ?_⟩
  · unfold create_buffer
    simp only
    split <;> rfl
  · intro e he
    rw [List.mem_singleton] at he
    rw [he]
    exact hP _

theorem appends_create_kernel (P : Event → Prop) (env : List Event → DevOp → Int) (k : Kernel)
    (hP : ∀ status, P (Event.call (DevOp.create_kernel k) status)) :
    Appends P (create_kernel env k) := by
  intro w
  refine ⟨[Event.call (DevOp.create_kernel k) (env w.log (DevOp.create_kernel k))], ?_, ?_⟩
  · unfold create_kernel
    simp only
    split <;> rfl
  · intro e he
    rw [List.mem_singleton] at he
    rw [he]
    exact hP _

theorem step1_turns_bindings (env : List Event → DevOp → Int) (workSizes : PPCWorkSizes)
    (n : Nat) :
    Appends (fun e => e.is_binding_or_dispatch = true) (step1_turns env workSizes n) := by
  induction n with
  | zero => exact appends_pure _ ()
  | succ n ih =>
    unfold step1_turns
    exact appends_bind _ _ _ ih (fun _ =>
      appends_bind _ _ _ (appends_call _ env _ (fun _ => rfl))
        (fun _ => appends_call _ env _ (fun _ => rfl)))

theorem step2_turns_bindings (env : List Event → DevOp → Int) (workSizes : PPCWorkSizes)
    (n : Nat) :
    Appends (fun e => e.is_binding_or_dispatch = true) (step2_turns env workSizes n) := by
  induction n with
  | zero => exact appends_pure _ ()
  | succ n ih =>
    unfold step2_turns
    exact appends_bind _ _ _ ih (fun _ =>
      appends_bind _ _ _ (appends_call _ env _ (fun _ => rfl))
        (fun _ => appends_call _ env _ (fun _ => rfl)))

theorem simulation_loop_bindings (env : List Event → DevOp → Int) (workSizes : PPCWorkSizes)
    (n : Nat) :
    Appends (fun e => e.is_binding_or_dispatch = true) (simulation_loop env workSizes n) := by
  induction n with
  | zero => exact appends_pure _ ()
  | succ n ih =>
    unfold simulation_loop
    exact appends_bind _ _ _ ih (fun _ =>
      appends_bind _ _ _ (step1_turns_bindings env workSizes _) (fun _ =>
        appends_bind _ _ _ (appends_call _ env _ (fun _ => rfl))
          (fun _ => step2_turns_bindings env workSizes _)))

theorem unchecked_is_finish_of_binding (e : Event) (h : e.is_binding_or_dispatch = true) :
    e.unchecked_is_finish := by
  cases e with
  | call_unchecked op st => cases h
  | _ => trivial

theorem not_finish_of_binding (e : Event) (h : e.is_binding_or_dispatch = true) :
    e.is_finish = false := by
  cases e with
  | call op st => cases op <;> first | rfl | cases h
  | _ => cases h

/-- C13, counterexample: in the run in which every call succeeds, with 2
workers, 3 rows per worker and 2 iterations, the operations of `ppc_simulate`
start with the one `clFinish` and no other operation is a finish, although
step-1 and step-2 dispatches follow: nothing waits between the last step-1
dispatch and the first step-2 dispatch of an iteration, nor after the last
step-2 dispatch. -/
theorem ppc_simulate_barrier_counterexample :
    ∃ rest, (ppc_simulate env_ok ⟨2, 0, 2, 3⟩ example_params (main_init example_mem)).2.log =
        Event.call_unchecked DevOp.finish 0 :: rest ∧
      rest.all (fun e => !e.is_finish) = true ∧
      Event.call (DevOp.enqueue_ndrange_kernel Kernel.step1 2 1) 0 ∈ rest ∧
      Event.call (DevOp.enqueue_ndrange_kernel Kernel.step2 2 1) 0 ∈ rest ∧
      rest.getLast? = some (Event.call (DevOp.enqueue_ndrange_kernel Kernel.step2 2 1) 0) := by
  refine ⟨simulation_events ⟨2, 0, 2, 3⟩ 2, ?_, ?_, ?_, ?_, ?_⟩
  · rw [ppc_simulate_ok env_ok (fun _ _ => rfl)]
    rfl
  · rfl
  · simp [simulation_events, iteration_events, step1_turn_events, List.range_succ]
  · simp [simulation_events, iteration_events, step2_turn_events, List.range_succ]
  · rfl

/-- C13, amended: in every run of `ppc_simulate`, whatever the runtime answers,
the only finish among its device operations is the `clFinish` issued once
before the first iteration (its status is not tested); every operation after
it is an argument binding or a dispatch, so no finish stands between the two
phases of an iteration or at the end of an iteration. -/
theorem ppc_simulate_single_finish (env : List Event → DevOp → Int)
    (workSizes : PPCWorkSizes) (params : PPParameters) (w : Host) :
    ∃ rest, (ppc_simulate env workSizes params w).2.log =
        w.log ++ Event.call_unchecked DevOp.finish (env w.log DevOp.finish) :: rest ∧
      (∀ e, e ∈ rest → e.is_finish = false) ∧
      (∀ e, e ∈ rest → e.is_binding_or_dispatch = true) := by
  obtain ⟨ext, hlog, hp⟩ := simulation_loop_bindings env workSizes params.iters
    { w with log := w.log ++ [Event.call_unchecked DevOp.finish (env w.log DevOp.finish)] }
  refine ⟨ext, ?_, fun e he => not_finish_of_binding e (hp e he), hp⟩
  have hrun : ppc_simulate env workSizes params w =
      simulation_loop env workSizes params.iters
        { w with log := w.log ++ [Event.call_unchecked DevOp.finish (env w.log DevOp.finish)] } :=
    run_bind_ok _ _ _ _ () rfl
  rw [hrun, hlog]
  simp

/-! ## A run of `main` in which every device call succeeds -/

theorem create_buffer_ok (env : List Event → DevOp → Int) (hok : ∀ l op, env l op = 0)
    (r : Region) (w : Host) :
    create_buffer env r w =
      (Outcome.ok (), { w with
        log := w.log ++ [Event.call (DevOp.create_buffer r) 0]
        buffersDevice := w.buffersDevice.set r true }) := by
  unfold create_buffer
  simp only [hok, if_true, decide_True]

theorem create_kernel_ok (env : List Event → DevOp → Int) (hok : ∀ l op, env l op = 0)
    (k : Kernel) (w : Host) :
    create_kernel env k w =
      (Outcome.ok (), { w with
        log := w.log ++ [Event.call (DevOp.create_kernel k) 0]
        krnls := match k with
          | Kernel.step1 => { w.krnls with step1 := true }
          | Kernel.step2 => { w.krnls with step2 := true } }) := by
  unfold create_kernel
  simp only [hok, if_true, decide_True]

theorem modify_mem_ok (f : HostMem → HostMem) (w : Host) :
    modify_mem f w = (Outcome.ok (), { w with mem := f w.mem }) := rfl

theorem emit_ok (e : Event) (w : Host) :
    emit e w = (Outcome.ok (), { w with log := w.log ++ [e] }) := rfl

theorem modify_mem_opt_some (f : HostMem → Option HostMem) (w : Host) (m : HostMem)
    (hf : f w.mem = some m) :
    modify_mem_opt f w = (Outcome.ok (), { w with mem := m }) := by
  unfold modify_mem_opt
  rw [hf]

theorem ppc_kernels_create_ok (env : List Event → DevOp → Int) (hok : ∀ l op, env l op = 0)
    (w : Host) :
    ppc_kernels_create env w =
      (Outcome.ok (), { w with
        log := w.log ++ [Event.call (DevOp.create_kernel Kernel.step1) 0,
          Event.call (DevOp.create_kernel Kernel.step2) 0]
        krnls := ⟨true, true⟩ }) := by
  unfold ppc_kernels_create
  rw [run_bind_ok _ _ _ _ _ (create_kernel_ok env hok _ _), create_kernel_ok env hok]
  simp

theorem run_bind_apply {α β : Type} (m : Run α) (f : α → Run β) (w : Host) :
    (m >>= f) w =
      match m w with
      | (Outcome.ok a, w') => f a w'
      | (Outcome.error, w') => (Outcome.error, w')
      | (Outcome.fault, w') => (Outcome.fault, w') := rfl

theorem run_bind_eq {α β : Type} (m : Run α) (f : α → Run β) (w w' : Host) (a : α)
    (r : Outcome β × Host) (hm : m w = (Outcome.ok a, w')) (hr : f a w' = r) :
    (m >>= f) w = r := by
  rw [run_bind_ok m f w w' a hm]
  exact hr

theorem ppc_buffers_init_ok (env : List Event → DevOp → Int) (hok : ∀ l op, env l op = 0)
    (fuel : Nat) (params : PPParameters) (w : Host) (h' : HostMem)
    (hinit : ppc_buffers_init_host fuel params w.mem = some h') :
    ppc_buffers_init env fuel params w =
      (Outcome.ok (), { w with
        log := w.log ++ (setup_events.drop 4)
        mem := h'
        buffersDevice := ⟨true, true, true, true, true⟩ }) := by
  have hinit' : ppc_agents_init fuel params
      (ppc_matrix_init params (ppc_stats_init params w.mem)) = some h' := hinit
  unfold ppc_buffers_init
  generalize ppc_agents_init fuel params = F at hinit' ⊢
  refine run_bind_eq _ _ _ _ _ _ (create_buffer_ok env hok _ _) ?_
  dsimp only
  refine run_bind_eq _ _ _ _ _ _ (create_buffer_ok env hok _ _) ?_
  dsimp only
  refine run_bind_eq _ _ _ _ _ _ (create_buffer_ok env hok _ _) ?_
  dsimp only
  refine run_bind_eq _ _ _ _ _ _ (create_buffer_ok env hok _ _) ?_
  dsimp only
  refine run_bind_eq _ _ _ _ _ _ (create_buffer_ok env hok _ _) ?_
  dsimp only
  refine run_bind_eq _ _ _ _ _ _ (call_ok env hok _ _) ?_
  dsimp only
  refine run_bind_eq _ _ _ _ _ _ (modify_mem_ok _ _) ?_
  dsimp only
  refine run_bind_eq _ _ _ _ _ _ (call_ok env hok _ _) ?_
  dsimp only
  refine run_bind_eq _ _ _ _ _ _ (modify_mem_ok _ _) ?_
  dsimp only
  refine run_bind_eq _ _ _ _ _ _ (call_ok env hok _ _) ?_
  dsimp only
  refine run_bind_eq _ _ _ _ _ _ (call_ok env hok _ _) ?_
  dsimp only
  refine run_bind_eq _ _ _ _ _ _ (modify_mem_opt_some _ _ h' hinit') ?_
  dsimp only
  refine run_bind_eq _ _ _ _ _ _ (call_ok env hok _ _) ?_
  dsimp only
  refine run_bind_eq _ _ _ _ _ _ (call_ok env hok _ _) ?_
  dsimp only
  refine run_bind_eq _ _ _ _ _ _ (call_ok env hok _ _) ?_
  dsimp only
  refine run_bind_eq _ _ _ _ _ _ (call_ok env hok _ _) ?_
  dsimp only
  refine run_bind_eq _ _ _ _ _ _ (call_ok env hok _ _) ?_
  dsimp only
  rw [call_ok env hok]
  simp [setup_events, PPCBuffersDevice.set]

theorem ppc_kernelargs_set_ok (env : List Event → DevOp → Int) (hok : ∀ l op, env l op = 0)
    (simParams : PPCSimParams) (w : Host) :
    ppc_kernelargs_set env simParams w =
      (Outcome.ok (), { w with log := w.log ++ kernelargs_events simParams }) := by
  unfold ppc_kernelargs_set
  rw [run_bind_ok _ _ _ _ _ (call_ok env hok _ _),
    run_bind_ok _ _ _ _ _ (call_ok env hok _ _),
    run_bind_ok _ _ _ _ _ (call_ok env hok _ _),
    run_bind_ok _ _ _ _ _ (call_ok env hok _ _),
    run_bind_ok _ _ _ _ _ (call_ok env hok _ _),
    run_bind_ok _ _ _ _ _ (call_ok env hok _ _),
    run_bind_ok _ _ _ _ _ (call_ok env hok _ _),
    run_bind_ok _ _ _ _ _ (call_ok env hok _ _),
    run_bind_ok _ _ _ _ _ (call_ok env hok _ _),
    call_ok env hok]
  simp [kernelargs_events]

theorem ppc_stats_get_ok (env : List Event → DevOp → Int) (hok : ∀ l op, env l op = 0)
    (params : PPParameters) (w : Host) :
    ppc_stats_get env params w =
      (Outcome.ok (), { w with
        log := w.log ++ [Event.call (DevOp.map_buffer Region.stats) 0,
          Event.stats_write (ppc_stats_get_output params w.mem.stats),
          Event.call (DevOp.unmap_mem_object Region.stats) 0] }) := by
  unfold ppc_stats_get
  simp only [run_bind_apply, call_ok env hok, emit_ok, hok, if_true]
  simp

theorem main_body_ok (env : List Event → DevOp → Int) (hok : ∀ l op, env l op = 0)
    (fuel : Nat) (args_values : PPCArgs) (cu : Nat) (params : PPParameters) (mem : HostMem)
    (workSizes : PPCWorkSizes) (h' : HostMem)
    (hws : ppc_numthreads_get args_values cu params.grid_y = some workSizes)
    (hinit : ppc_buffers_init_host fuel params mem = some h') :
    main_body env fuel args_values cu params (main_init mem) =
      (Outcome.ok (),
        { log := success_events workSizes params
            (ppc_simparams_init params NULL_AGENT_POINTER params.grid_y) h'.stats
          mem := h'
          krnls := ⟨true, true⟩
          buffersDevice := ⟨true, true, true, true, true⟩ }) := by
  unfold main_body
  refine run_bind_eq _ _ _ _ _ _ (call_ok env hok _ _) ?_
  dsimp only
  refine run_bind_eq _ _ _ _ _ _ (call_ok env hok _ _) ?_
  dsimp only
  refine run_bind_eq _ _ _ _ workSizes _ (by rw [hws]) ?_
  dsimp only
  refine run_bind_eq _ _ _ _ _ _ (ppc_kernels_create_ok env hok _) ?_
  dsimp only
  refine run_bind_eq _ _ _ _ _ _ (ppc_buffers_init_ok env hok fuel params _ h' hinit) ?_
  dsimp only
  refine run_bind_eq _ _ _ _ _ _ (ppc_kernelargs_set_ok env hok _ _) ?_
  dsimp only
  refine run_bind_eq _ _ _ _ _ _ (ppc_simulate_ok env hok _ _ _) ?_
  dsimp only
  refine run_bind_eq _ _ _ _ _ _ (ppc_stats_get_ok env hok _ _) ?_
  dsimp only
  rw [call_ok env hok]
  simp [success_events, setup_events, main_init]

/-- The events of a run of `main` in which every device call succeeds. -/
theorem main_ok (env : List Event → DevOp → Int) (hok : ∀ l op, env l op = 0)
    (fuel : Nat) (args_values : PPCArgs) (cu : Nat) (params : PPParameters) (mem : HostMem)
    (workSizes : PPCWorkSizes) (h' : HostMem)
    (hws : ppc_numthreads_get args_values cu params.grid_y = some workSizes)
    (hinit : ppc_buffers_init_host fuel params mem = some h') :
    main env fuel args_values cu params mem =
      success_events workSizes params
        (ppc_simparams_init params NULL_AGENT_POINTER params.grid_y) h'.stats ++
      main_cleanup
        { log := success_events workSizes params
            (ppc_simparams_init params NULL_AGENT_POINTER params.grid_y) h'.stats
          mem := h'
          krnls := ⟨true, true⟩
          buffersDevice := ⟨true, true, true, true, true⟩ } := by
  unfold main
  rw [main_body_ok env hok fuel args_values cu params mem workSizes h' hws hinit]

/-! ## The simulation parameters bound to the kernels -/

/-- In a run in which every call succeeds, the records bound as kernel
arguments are exactly argument 4 of `step1` and argument 6 of `step2`, both
the record built by `main`. -/
theorem simparams_of_success_events (workSizes : PPCWorkSizes) (params : PPParameters)
    (simParams : PPCSimParams) (stats : Nat → PPStatistics)
    (k : Kernel) (i : Nat) (s : PPCSimParams) (status : Int) :
    Event.call (DevOp.set_kernel_arg k i (ArgValue.simparams s)) status ∈
      success_events workSizes params simParams stats ↔
    ((k = Kernel.step1 ∧ i = 4 ∧ s = simParams) ∧ status = 0 ∨
      (k = Kernel.step2 ∧ i = 6 ∧ s = simParams) ∧ status = 0) := by
  unfold success_events setup_events kernelargs_events simulation_events iteration_events
    step1_turn_events step2_turn_events
  simp

theorem mem_main_of_success (env : List Event → DevOp → Int) (hok : ∀ l op, env l op = 0)
    (fuel : Nat) (args_values : PPCArgs) (cu : Nat) (params : PPParameters) (mem : HostMem)
    (workSizes : PPCWorkSizes) (h' : HostMem)
    (hws : ppc_numthreads_get args_values cu params.grid_y = some workSizes)
    (hinit : ppc_buffers_init_host fuel params mem = some h')
    (op : DevOp) (status : Int) :
    Event.call op status ∈ main env fuel args_values cu params mem ↔
      Event.call op status ∈ success_events workSizes params
        (ppc_simparams_init params NULL_AGENT_POINTER params.grid_y) h'.stats := by
  rw [main_ok env hok fuel args_values cu params mem workSizes h' hws hinit, List.mem_append]
  constructor
  · rintro (h | h)
    · exact h
    · have := main_cleanup_is_teardown _ _ h
      rw [not_teardown_call] at this
      cases this
  · exact Or.inl

/-- C15: the code at the reported input. On a grid of height 9 with 3
requested workers `ppc_numthreads_get` computes `rows_per_workitem = 3`, but
the record that `main` builds has `lines_per_thread = 9` (the grid height,
which `main` passes as third argument of `ppc_simparams_init`), and this
record is what the run binds to argument 4 of `step1` and argument 6 of
`step2`; no other record is bound. -/
theorem main_simparams_lines_per_thread :
    ∃ ws : PPCWorkSizes,
      ppc_numthreads_get ⟨3, 0⟩ 4 example_params_nine.grid_y = some ws ∧
      ws.rows_per_workitem = 3 ∧
      (∀ k i s status,
        Event.call (DevOp.set_kernel_arg k i (ArgValue.simparams s)) status ∈
          main env_ok 5 ⟨3, 0⟩ 4 example_params_nine example_mem ↔
        ((k = Kernel.step1 ∧ i = 4 ∨ k = Kernel.step2 ∧ i = 6) ∧ status = 0 ∧
          s = { size_x := 3, size_y := 9, size_xy := 27, max_agents := MAX_AGENTS,
                null_agent_pointer := NULL_AGENT_POINTER, grass_restart := 10,
                lines_per_thread := 9 })) := by
  obtain ⟨h', hinit, -, -⟩ := ppc_buffers_init_host_inv 5 example_params_nine example_mem
    (by decide) (by decide) (by decide) (by decide)
  have hws : ppc_numthreads_get ⟨3, 0⟩ 4 example_params_nine.grid_y = some ⟨3, 0, 3, 3⟩ := by
    decide
  refine ⟨⟨3, 0, 3, 3⟩, hws, rfl, ?_⟩
  intro k i s status
  rw [mem_main_of_success env_ok (fun _ _ => rfl) 5 ⟨3, 0⟩ 4 example_params_nine example_mem
    ⟨3, 0, 3, 3⟩ h' hws hinit, simparams_of_success_events]
  have hs : ppc_simparams_init example_params_nine NULL_AGENT_POINTER example_params_nine.grid_y
      = { size_x := 3, size_y := 9, size_xy := 27, max_agents := MAX_AGENTS,
          null_agent_pointer := NULL_AGENT_POINTER, grass_restart := 10,
          lines_per_thread := 9 } := by decide
  rw [hs]
  constructor
  · rintro (⟨⟨hk, hi, hs'⟩, hst⟩ | ⟨⟨hk, hi, hs'⟩, hst⟩)
    · exact ⟨Or.inl ⟨hk, hi⟩, hst, hs'⟩
    · exact ⟨Or.inr ⟨hk, hi⟩, hst, hs'⟩
  · rintro ⟨hk | hk, hst, hs'⟩
    · exact Or.inl ⟨⟨hk.1, hk.2, hs'⟩, hst⟩
    · exact Or.inr ⟨⟨hk.1, hk.2, hs'⟩, hst⟩

/-! ## A requested population above the arena capacity -/

theorem ppc_simulate_unchecked (env : List Event → DevOp → Int) (workSizes : PPCWorkSizes)
    (params : PPParameters) :
    Appends Event.unchecked_is_finish (ppc_simulate env workSizes params) := by
  unfold ppc_simulate
  exact appends_bind _ _ _ (appends_call_unchecked _ env _ (fun _ => rfl)) (fun _ =>
    appends_mono _ _ _ unchecked_is_finish_of_binding (simulation_loop_bindings env workSizes _))

theorem ppc_kernels_create_unchecked (env : List Event → DevOp → Int) :
    Appends Event.unchecked_is_finish (ppc_kernels_create env) := by
  unfold ppc_kernels_create
  exact appends_bind _ _ _ (appends_create_kernel _ env _ (fun _ => trivial))
    (fun _ => appends_create_kernel _ env _ (fun _ => trivial))

theorem ppc_buffers_init_unchecked (env : List Event → DevOp → Int) (fuel : Nat)
    (params : PPParameters) :
    Appends Event.unchecked_is_finish (ppc_buffers_init env fuel params) := by
  unfold ppc_buffers_init
  refine appends_bind _ _ _ (appends_create_buffer _ env _ (fun _ => trivial)) (fun _ => ?_)
  refine appends_bind _ _ _ (appends_create_buffer _ env _ (fun _ => trivial)) (fun _ => ?_)
  refine appends_bind _ _ _ (appends_create_buffer _ env _ (fun _ => trivial)) (fun _ => ?_)
  refine appends_bind _ _ _ (appends_create_buffer _ env _ (fun _ => trivial)) (fun _ => ?_)
  refine appends_bind _ _ _ (appends_create_buffer _ env _ (fun _ => trivial)) (fun _ => ?_)
  refine appends_bind _ _ _ (appends_call _ env _ (fun _ => trivial)) (fun _ => ?_)
  refine appends_bind _ _ _ (appends_modify_mem _ _) (fun _ => ?_)
  refine appends_bind _ _ _ (appends_call _ env _ (fun _ => trivial)) (fun _ => ?_)
  refine appends_bind _ _ _ (appends_modify_mem _ _) (fun _ => ?_)
  refine appends_bind _ _ _ (appends_call _ env _ (fun _ => trivial)) (fun _ => ?_)
  refine appends_bind _ _ _ (appends_call _ env _ (fun _ => trivial)) (fun _ => ?_)
  refine appends_bind _ _ _ (appends_modify_mem_opt _ _) (fun _ => ?_)
  refine appends_bind _ _ _ (appends_call _ env _ (fun _ => trivial)) (fun _ => ?_)
  refine appends_bind _ _ _ (appends_call _ env _ (fun _ => trivial)) (fun _ => ?_)
  refine appends_bind _ _ _ (appends_call _ env _ (fun _ => trivial)) (fun _ => ?_)
  refine appends_bind _ _ _ (appends_call _ env _ (fun _ => trivial)) (fun _ => ?_)
  refine appends_bind _ _ _ (appends_call _ env _ (fun _ => trivial)) (fun _ => ?_)
  exact appends_call _ env _ (fun _ => trivial)

theorem ppc_kernelargs_set_unchecked (env : List Event → DevOp → Int)
    (simParams : PPCSimParams) :
    Appends Event.unchecked_is_finish (ppc_kernelargs_set env simParams) := by
  unfold ppc_kernelargs_set
  refine appends_bind _ _ _ (appends_call _ env _ (fun _ => trivial)) (fun _ => ?_)
  refine appends_bind _ _ _ (appends_call _ env _ (fun _ => trivial)) (fun _ => ?_)
  refine appends_bind _ _ _ (appends_call _ env _ (fun _ => trivial)) (fun _ => ?_)
  refine appends_bind _ _ _ (appends_call _ env _ (fun _ => trivial)) (fun _ => ?_)
  refine appends_bind _ _ _ (appends_call _ env _ (fun _ => trivial)) (fun _ => ?_)
  refine appends_bind _ _ _ (appends_call _ env _ (fun _ => trivial)) (fun _ => ?_)
  refine appends_bind _ _ _ (appends_call _ env _ (fun _ => trivial)) (fun _ => ?_)
  refine appends_bind _ _ _ (appends_call _ env _ (fun _ => trivial)) (fun _ => ?_)
  refine appends_bind _ _ _ (appends_call _ env _ (fun _ => trivial)) (fun _ => ?_)
  exact appends_call _ env _ (fun _ => trivial)

theorem ppc_stats_get_unchecked (env : List Event → DevOp → Int) (params : PPParameters) :
    Appends Event.unchecked_is_finish (ppc_stats_get env params) := by
  unfold ppc_stats_get
  refine appends_bind _ _ _ (appends_call _ env _ (fun _ => trivial)) (fun _ =>
    appends_bind _ _ _ ?_ (fun _ => appends_call _ env _ (fun _ => trivial)))
  intro w
  by_cases hf : env w.log DevOp.fopen = 0
  · simp only [hf, if_true]
    exact appends_emit _ _ trivial w
  · simp only [hf, if_false]
    exact ⟨[], by simp, fun e he => by cases he⟩

theorem main_body_unchecked (env : List Event → DevOp → Int) (fuel : Nat)
    (args_values : PPCArgs) (cu : Nat) (params : PPParameters) :
    Appends Event.unchecked_is_finish (main_body env fuel args_values cu params) := by
  unfold main_body
  refine appends_bind _ _ _ (appends_call _ env _ (fun _ => trivial)) (fun _ => ?_)
  refine appends_bind _ _ _ (appends_call _ env _ (fun _ => trivial)) (fun _ => ?_)
  refine appends_bind _ _ _ ?_ (fun ws => ?_)
  · intro w
    refine ⟨[], ?_, fun e he => by cases he⟩
    split <;> simp
  refine appends_bind _ _ _ (ppc_kernels_create_unchecked env) (fun _ => ?_)
  refine appends_bind _ _ _ (ppc_buffers_init_unchecked env fuel params) (fun _ => ?_)
  refine appends_bind _ _ _ (ppc_kernelargs_set_unchecked env _) (fun _ => ?_)
  refine appends_bind _ _ _ (ppc_simulate_unchecked env ws params) (fun _ => ?_)
  refine appends_bind _ _ _ (ppc_stats_get_unchecked env params) (fun _ => ?_)
  exact appends_call _ env _ (fun _ => trivial)

theorem unchecked_is_finish_of_teardown (e : Event) (h : e.is_teardown = true) :
    e.unchecked_is_finish := by
  cases e with
  | call_unchecked op st => cases h
  | _ => trivial

/-- In every run of `main` the only call whose status is discarded is a
`clFinish`. -/
theorem main_unchecked_is_finish (env : List Event → DevOp → Int) (fuel : Nat)
    (args_values : PPCArgs) (cu : Nat) (params : PPParameters) (mem : HostMem)
    (e : Event) (he : e ∈ main env fuel args_values cu params mem) :
    e.unchecked_is_finish := by
  obtain ⟨ext, hlog, hp⟩ := main_body_unchecked env fuel args_values cu params (main_init mem)
  unfold main at he
  rcases hb : main_body env fuel args_values cu params (main_init mem) with ⟨o, w⟩
  rw [hb] at hlog he
  have hlog' : w.log = ext := by
    simpa [main_init] using hlog
  cases o with
  | ok a =>
    simp only at he
    rcases List.mem_append.mp he with h | h
    · rw [hlog'] at h
      exact hp e h
    · exact unchecked_is_finish_of_teardown e (main_cleanup_is_teardown w e h)
  | fault =>
    simp only at he
    rw [hlog'] at he
    exact hp e he
  | error =>
    simp only at he
    rcases List.mem_append.mp he with h | h
    · rcases List.mem_append.mp h with h | h
      · rw [hlog'] at h
        exact hp e h
      · rw [List.mem_singleton] at h
        rw [h]
        trivial
    · exact unchecked_is_finish_of_teardown e (main_cleanup_is_teardown w e h)

/-- A tested call that failed is preceded by successful tested calls only and
followed by the error report and the teardown. -/
theorem main_failed_call_shape (env : List Event → DevOp → Int) (fuel : Nat)
    (args_values : PPCArgs) (cu : Nat) (params : PPParameters) (mem : HostMem)
    (pre post : List Event) (op : DevOp) (status : Int)
    (hlog : main env fuel args_values cu params mem = pre ++ Event.call op status :: post)
    (hfail : status ≠ 0) :
    AllOk pre ∧ ∃ teardown, post = Event.error_report :: teardown ∧
      ∀ e, e ∈ teardown → e.is_teardown = true := by
  rcases main_log_shape env fuel args_values cu params mem with hall | hshape
  · exfalso
    apply hfail
    apply hall op status
    rw [hlog]
    simp
  · obtain ⟨pre', op', status', w, hne, hpre, heq⟩ := hshape
    rw [hlog] at heq
    rcases List.append_eq_append_iff.mp heq with ⟨a', h1, h2⟩ | ⟨c', h1, h2⟩
    · cases a' with
      | nil =>
        simp only [List.nil_append] at h2
        injection h2 with h3 h4
        simp only [List.append_nil] at h1
        refine ⟨h1 ▸ hpre, main_cleanup w, h4, main_cleanup_is_teardown w⟩
      | cons x a'' =>
        exfalso
        simp only [List.cons_append] at h2
        injection h2 with h3 h4
        apply hfail
        apply hpre op status
        rw [h1, ← h3]
        simp
    · cases c' with
      | nil =>
        simp only [List.nil_append] at h2
        injection h2 with h3 h4
        simp only [List.append_nil] at h1
        refine ⟨h1 ▸ hpre, main_cleanup w, h4.symm, main_cleanup_is_teardown w⟩
      | cons x c'' =>
        exfalso
        simp only [List.cons_append] at h2
        injection h2 with h3 h4
        have hmem : Event.call op status ∈ Event.error_report :: main_cleanup w := by
          rw [h4]; simp
        rcases List.mem_cons.mp hmem with h | h
        · cases h
        · have := main_cleanup_is_teardown w _ h
          rw [not_teardown_call] at this
          cases this

theorem not_failed_step_of_ok (l : List Event) (hl : AllOk l)
    (hu : ∀ e, e ∈ l → e.unchecked_is_finish) (e : Event) (he : e ∈ l) :
    e.is_failed_step = false := by
  cases e with
  | call op st =>
    have := hl op st he
    subst this
    rfl
  | call_unchecked op st =>
    have : op = DevOp.finish := hu _ he
    subst this
    simp [Event.is_failed_step]
  | _ => rfl

/-- C9: in `main` and the functions it calls the first failing operation
short-circuits everything after it. Whenever the log of a run contains a
failed step (a runtime call other than a discarded `clFinish` that returned a
non-success status, whether the host tests the status or not), that call is
one whose status the host tests, no step before it failed, and what follows it
is exactly the error report followed by teardown events: no later setup step,
no later dispatch and no statistics read-out. No creation or mapping of a
region, argument binding or dispatch escapes the test: the only call of a run
whose status is discarded is a `clFinish`. -/
theorem main_short_circuit (env : List Event → DevOp → Int) (fuel : Nat)
    (args_values : PPCArgs) (cu : Nat) (params : PPParameters) (mem : HostMem)
    (pre post : List Event) (e : Event)
    (hlog : main env fuel args_values cu params mem = pre ++ e :: post)
    (hfail : e.is_failed_step = true) :
    (∃ op status, e = Event.call op status ∧ status ≠ 0) ∧
    (∀ e', e' ∈ pre → e'.is_failed_step = false) ∧
    (∃ teardown, post = Event.error_report :: teardown ∧
      ∀ e', e' ∈ teardown → e'.is_teardown = true) ∧
    (∀ op status,
      Event.call_unchecked op status ∈ main env fuel args_values cu params mem →
        op = DevOp.finish) := by
  have hu := main_unchecked_is_finish env fuel args_values cu params mem
  have hpre_mem : ∀ e', e' ∈ pre → e' ∈ main env fuel args_values cu params mem := by
    intro e' he'
    rw [hlog]
    exact List.mem_append_left _ he'
  have hlast : ∀ op status,
      Event.call_unchecked op status ∈ main env fuel args_values cu params mem →
        op = DevOp.finish := fun op status h => hu _ h
  cases e with
  | call op status =>
    have hne : status ≠ 0 := by
      simpa [Event.is_failed_step] using hfail
    obtain ⟨hpre, hpost⟩ :=
      main_failed_call_shape env fuel args_values cu params mem pre post op status hlog hne
    exact ⟨⟨op, status, rfl, hne⟩,
      not_failed_step_of_ok pre hpre (fun e' he' => hu e' (hpre_mem e' he')), hpost, hlast⟩
  | call_unchecked op status =>
    exfalso
    have hop : op = DevOp.finish := hu (Event.call_unchecked op status) (by rw [hlog]; simp)
    subst hop
    simp [Event.is_failed_step] at hfail
  | _ => cases hfail

/-- Witness for C9: the creation of the matrix region fails; the log is the
five successful calls, the failed call, the error report and the teardown. -/
theorem main_short_circuit_witness :
    main env_matrix_fails 5 ⟨2, 0⟩ 4 example_params_tall example_mem =
        [Event.call DevOp.zone_new 0, Event.call DevOp.program_create 0,
          Event.call (DevOp.create_kernel Kernel.step1) 0,
          Event.call (DevOp.create_kernel Kernel.step2) 0,
          Event.call (DevOp.create_buffer Region.stats) 0] ++
        Event.call (DevOp.create_buffer Region.matrix) (-4) ::
        [Event.error_report, Event.release_kernel Kernel.step1,
          Event.release_kernel Kernel.step2, Event.release_mem_object Region.stats,
          Event.release_mem_object Region.stats, Event.zone_free, Event.events_free,
          Event.profile_free, Event.rand_free] ∧
    (Event.call (DevOp.create_buffer Region.matrix) (-4)).is_failed_step = true ∧
    ((∃ op status, Event.call (DevOp.create_buffer Region.matrix) (-4) = Event.call op status ∧
        status ≠ 0) ∧
      (∀ e', e' ∈ [Event.call DevOp.zone_new 0, Event.call DevOp.program_create 0,
          Event.call (DevOp.create_kernel Kernel.step1) 0,
          Event.call (DevOp.create_kernel Kernel.step2) 0,
          Event.call (DevOp.create_buffer Region.stats) 0] → e'.is_failed_step = false) ∧
      (∃ teardown,
        [Event.error_report, Event.release_kernel Kernel.step1,
          Event.release_kernel Kernel.step2, Event.release_mem_object Region.stats,
          Event.release_mem_object Region.stats, Event.zone_free, Event.events_free,
          Event.profile_free, Event.rand_free] = Event.error_report :: teardown ∧
        ∀ e', e' ∈ teardown → e'.is_teardown = true) ∧
      (∀ op status,
        Event.call_unchecked op status ∈
          main env_matrix_fails 5 ⟨2, 0⟩ 4 example_params_tall example_mem →
        op = DevOp.finish)) :=
  ⟨by decide, by decide,
    main_short_circuit env_matrix_fails 5 ⟨2, 0⟩ 4 example_params_tall example_mem
      [Event.call DevOp.zone_new 0, Event.call DevOp.program_create 0,
        Event.call (DevOp.create_kernel Kernel.step1) 0,
        Event.call (DevOp.create_kernel Kernel.step2) 0,
        Event.call (DevOp.create_buffer Region.stats) 0]
      [Event.error_report, Event.release_kernel Kernel.step1,
        Event.release_kernel Kernel.step2, Event.release_mem_object Region.stats,
        Event.release_mem_object Region.stats, Event.zone_free, Event.events_free,
        Event.profile_free, Event.rand_free]
      (Event.call (DevOp.create_buffer Region.matrix) (-4)) (by decide) (by decide)⟩

end PredPreyCPU
